import Mathlib

/-!
Verification of the SIE parser core (`sie_parser.py`) against its design
specification.  The parser is shallowly embedded over `List Char` strings:
each Python string primitive used by the source (`str.strip`, `str.split`,
`str.split(' ', n)`, `str.splitlines`, `float`, `int`, `str.isdigit`,
`re.search` of a quoted field) is modelled by an executable Lean function,
and `parse_sie` is reproduced branch by branch.  Numeric amounts are kept
as exact decimals `mantissa * 10 ^ exp10` instead of IEEE doubles; no
property proved here depends on floating-point rounding, only on which
strings `float()` accepts and on the decoded decimal value.
-/

/-- Characters stripped by Python's `str.strip()` (ASCII whitespace model). -/
def isPySpace (c : Char) : Bool :=
  c = ' ' || c = '\t' || c = '\n' || c = '\r' || c = '\x0b' || c = '\x0c'

/-- Model of Python `s.strip()`. -/
def pyStrip (l : List Char) : List Char :=
  ((l.dropWhile isPySpace).reverse.dropWhile isPySpace).reverse

/-- Model of Python `s.split(' ')` (single-space separator, keeps empty fields,
`''.split(' ') == ['']`). -/
def pySplitSp : List Char → List (List Char)
  | [] => [[]]
  | c :: cs =>
    if c = ' ' then [] :: pySplitSp cs
    else
      match pySplitSp cs with
      | [] => [[c]]
      | t :: ts => (c :: t) :: ts

/-- Model of Python `s.split(' ', maxsplit)`. -/
def pySplitMax : Nat → List Char → List (List Char)
  | 0, l => [l]
  | _ + 1, [] => [[]]
  | n + 1, c :: cs =>
    if c = ' ' then [] :: pySplitMax n cs
    else
      match pySplitMax (n + 1) cs with
      | [] => [[c]]
      | t :: ts => (c :: t) :: ts

/-- Helper for `pySplitWs`: accumulates the current field in reverse. -/
def pySplitWsGo : List Char → List Char → List (List Char)
  | [], cur => if cur.isEmpty then [] else [cur.reverse]
  | c :: t, cur =>
    if isPySpace c then
      if cur.isEmpty then pySplitWsGo t [] else cur.reverse :: pySplitWsGo t []
    else pySplitWsGo t (c :: cur)

/-- Model of Python `s.split()` (runs of whitespace, empty fields dropped). -/
def pySplitWs (l : List Char) : List (List Char) :=
  pySplitWsGo l []

/-- Helper for `splitlines`: accumulates the current line in reverse. -/
def splitlinesGo : List Char → List Char → List (List Char)
  | [], cur => if cur.isEmpty then [] else [cur.reverse]
  | '\r' :: '\n' :: t, cur => cur.reverse :: splitlinesGo t []
  | '\n' :: t, cur => cur.reverse :: splitlinesGo t []
  | '\r' :: t, cur => cur.reverse :: splitlinesGo t []
  | c :: t, cur => splitlinesGo t (c :: cur)

/-- Model of Python `s.splitlines()` for the newline conventions
`\n`, `\r`, `\r\n` (a trailing newline produces no empty last line). -/
def pySplitlines (l : List Char) : List (List Char) :=
  splitlinesGo l []

/-- Boolean prefix test: `lstartsWith t l` models Python `l.startswith(t)`. -/
def lstartsWith (t : String) (l : List Char) : Bool :=
  t.data.isPrefixOf l

/-- Model of Python `s.replace(',', '.')`. -/
def replaceComma (l : List Char) : List Char :=
  l.map (fun c => if c = ',' then '.' else c)

/-- Model of Python `s.isdigit()` restricted to ASCII digits. -/
def pyIsdigit (l : List Char) : Bool :=
  !l.isEmpty && l.all Char.isDigit

/-- Model of Python `s.lstrip('-')`. -/
def dropLeadingMinus (l : List Char) : List Char :=
  l.dropWhile (· = '-')

/-- Model of `_extract_quoted_value`: first substring matched by the regular
expression of a pair of double quotes, empty when there is no complete
quoted field. -/
def extractQuotedValue (l : List Char) : List Char :=
  match l.dropWhile (· ≠ '"') with
  | [] => []
  | _ :: rest =>
    if (rest.dropWhile (· ≠ '"')).isEmpty then []
    else rest.takeWhile (· ≠ '"')

/-- De-quoting used by the `#KONTO`, `#DIM` and `#OBJEKT` handlers:
`if name.startswith('"') and name.endswith('"'): name = name[1:-1]`. -/
def dequoteIfWrapped (l : List Char) : List Char :=
  if l.head? = some '"' && l.getLast? = some '"' then (l.drop 1).dropLast else l

/-- Digits-and-underscores run accepted by Python numeric literals. -/
def takeNumRun (l : List Char) : List Char :=
  l.takeWhile (fun c => c.isDigit || c = '_')

/-- Rejects consecutive underscores inside a numeric literal group. -/
def noDoubleUnderscore : List Char → Bool
  | a :: b :: t => !(a = '_' && b = '_') && noDoubleUnderscore (b :: t)
  | _ => true

/-- A valid Python digit group: nonempty, underscores only between digits. -/
def validUnderscoreGroup (g : List Char) : Bool :=
  !g.isEmpty && g.head? ≠ some '_' && g.getLast? ≠ some '_' &&
    noDoubleUnderscore g && g.all (fun c => c.isDigit || c = '_')

/-- Numeric value of a list of ASCII digits. -/
def natFromDigits (l : List Char) : Nat :=
  l.foldl (fun acc c => 10 * acc + (c.toNat - '0'.toNat)) 0

/-- Reads an optional digit group at the front of `l`, failing when the run
of digit/underscore characters is present but malformed. -/
def readGroupOpt (l : List Char) : Option (List Char × List Char) :=
  let g := takeNumRun l
  if g.isEmpty then some ([], l)
  else if validUnderscoreGroup g then some (g.filter (· ≠ '_'), l.drop g.length)
  else none

/-- Model of Python `int(s)` (base 10, ASCII digits). -/
def pyIntParse (l : List Char) : Option Int :=
  let s := pyStrip l
  let signed : Bool × List Char :=
    match s with
    | '+' :: t => (false, t)
    | '-' :: t => (true, t)
    | t => (false, t)
  if validUnderscoreGroup signed.2 then
    let n : Int := natFromDigits (signed.2.filter (· ≠ '_'))
    some (if signed.1 then -n else n)
  else none

/-- Result of Python `float(s)`: finite values are exact decimals
`mantissa * 10 ^ exp10`; the special spellings are kept symbolic. -/
inductive PyFloat where
  | finite (mantissa : Int) (exp10 : Int)
  | inf
  | negInf
  | nan
deriving DecidableEq, Repr

/-- The literal `0.0` used by the source as default amount/quantity. -/
def pyZero : PyFloat := .finite 0 0

/-- Model of Python `float(s)` for ASCII input: optional sign, `inf`,
`infinity`, `nan` (case-insensitive), or a decimal literal with optional
fraction and exponent, underscores allowed between digits. -/
def pyFloatParse (l : List Char) : Option PyFloat := do
  let s := pyStrip l
  let signed : Bool × List Char :=
    match s with
    | '+' :: t => (false, t)
    | '-' :: t => (true, t)
    | t => (false, t)
  let neg := signed.1
  let low := signed.2.map Char.toLower
  if low = "inf".data || low = "infinity".data then
    pure (if neg then PyFloat.negInf else PyFloat.inf)
  else if low = "nan".data then
    pure PyFloat.nan
  else do
    let (intDigits, r1) ← readGroupOpt signed.2
    let (fracDigits, r2) ←
      match r1 with
      | '.' :: t => readGroupOpt t
      | _ => some ([], r1)
    if intDigits.isEmpty && fracDigits.isEmpty then
      none
    else do
      let (expNeg, expDigits, r3) ←
        match r2 with
        | 'e' :: t | 'E' :: t =>
          let esigned : Bool × List Char :=
            match t with
            | '+' :: t1 => (false, t1)
            | '-' :: t1 => (true, t1)
            | t1 => (false, t1)
          match readGroupOpt esigned.2 with
          | some (g, r) => if g.isEmpty then none else some (esigned.1, g, r)
          | none => none
        | _ => some (false, ([] : List Char), r2)
      if !r3.isEmpty then
        none
      else
        let mant : Int := natFromDigits (intDigits ++ fracDigits)
        let expVal : Int :=
          (if expNeg then -(natFromDigits expDigits : Int)
           else (natFromDigits expDigits : Int)) - fracDigits.length
        pure (PyFloat.finite (if neg then -mant else mant) expVal)

/-! ## Data model (`AccountType`, exceptions, dataclasses) -/

/-- SIE account types (`AccountType` enum). -/
inductive AccountType where
  | ASSET
  | LIABILITY
  | INCOME
  | EXPENSE
deriving DecidableEq, Repr

/-- `AccountType.from_sie_code`: decodes the one-letter SIE code, `none`
models the `ValueError` raised for an unknown code. -/
def AccountType.from_sie_code (code : List Char) : Option AccountType :=
  if code = "K".data then some .ASSET
  else if code = "S".data then some .LIABILITY
  else if code = "I".data then some .INCOME
  else if code = "T".data then some .EXPENSE
  else none

/-- `SieParseError`: the constructor arguments of the Python exception.
The Python class also formats a human-readable message from these three
values; the claims only inspect the stored line number and line content. -/
structure SieParseError where
  message : List Char
  line_number : Option Nat
  line_content : Option (List Char)
deriving DecidableEq, Repr

/-- `SieAccount` dataclass. -/
structure SieAccount where
  number : List Char
  name : List Char
  type : AccountType
  sru_code : List Char := []
deriving DecidableEq, Repr

/-- `SieEntry` dataclass. -/
structure SieEntry where
  date : List Char
  account_number : List Char
  amount : PyFloat
  description : List Char
  voucher_index : Option (List Char) := none
deriving DecidableEq, Repr

/-- `SieBalance` dataclass. -/
structure SieBalance where
  account_number : List Char
  period : Int
  amount : PyFloat
  quantity : PyFloat := pyZero
deriving DecidableEq, Repr

/-- `SieDimension` dataclass. -/
structure SieDimension where
  number : List Char
  name : List Char
deriving DecidableEq, Repr

/-- `SieObject` dataclass. -/
structure SieObject where
  dimension : List Char
  number : List Char
  name : List Char
deriving DecidableEq, Repr

/-- `SieFile` dataclass.  Python `dict` collections are modelled as
association lists in insertion order with unique keys. -/
structure SieFile where
  company_name : List Char := []
  company_id : List Char := []
  period_start : List Char := []
  period_end : List Char := []
  file_flag : List Char := []
  file_format : List Char := []
  sie_type : List Char := []
  program : List Char := []
  generation_date : List Char := []
  file_number : List Char := []
  currency : List Char := []
  tax_year : List Char := []
  account_plan_type : List Char := []
  contact_person : List Char := []
  address_line1 : List Char := []
  address_line2 : List Char := []
  phone : List Char := []
  accounts : List (List Char × SieAccount) := []
  entries : List SieEntry := []
  opening_balances : List SieBalance := []
  closing_balances : List SieBalance := []
  result_balances : List SieBalance := []
  dimensions : List (List Char × SieDimension) := []
  objects : List (List Char × SieObject) := []
  metadata : List (List Char × List Char) := []
deriving DecidableEq, Repr

/-! ## Dictionary operations (Python `dict` on string keys) -/

/-- First value stored under `k` (Python `d[k]` / `d.get(k)`). -/
def lookupD (k : List Char) : List (List Char × α) → Option α
  | [] => none
  | (k', v) :: t => if k' = k then some v else lookupD k t

/-- Python `k in d`. -/
def memD (k : List Char) (d : List (List Char × α)) : Bool :=
  (lookupD k d).isSome

/-- Python `d[k] = v`: replaces in place when the key exists (keeping its
insertion position), appends otherwise. -/
def upsertD (k : List Char) (v : α) : List (List Char × α) → List (List Char × α)
  | [] => [(k, v)]
  | (k', v') :: t => if k' = k then (k, v) :: t else (k', v') :: upsertD k v t

/-- In-place mutation of the value stored under `k` (`d[k].field = x`). -/
def updateD (k : List Char) (f : α → α) : List (List Char × α) → List (List Char × α)
  | [] => []
  | (k', v) :: t => if k' = k then (k', f v) :: t else (k', v) :: updateD k f t

/-! ## The record dispatcher -/

/-- The tags recognised by the `elif` chain of `parse_sie`, in source order. -/
inductive RecordKind where
  | flagga | format | sietyp | program | gen | fnr | valuta | taxar | kptyp
  | adress | fnamn | orgnr | rar | konto | ktyp | sru | dim | objekt
  | ib | ub | res | ver | trans | unknown
deriving DecidableEq, Repr

/-- The tag prefixes tested by the `elif` chain of `parse_sie`, in source
order. -/
def tagTable : List (String × RecordKind) :=
  [("#FLAGGA", .flagga), ("#FORMAT", .format), ("#SIETYP", .sietyp),
   ("#PROGRAM", .program), ("#GEN", .gen), ("#FNR", .fnr),
   ("#VALUTA", .valuta), ("#TAXAR", .taxar), ("#KPTYP", .kptyp),
   ("#ADRESS", .adress), ("#FNAMN", .fnamn), ("#ORGNR", .orgnr),
   ("#RAR", .rar), ("#KONTO", .konto), ("#KTYP", .ktyp), ("#SRU", .sru),
   ("#DIM", .dim), ("#OBJEKT", .objekt), ("#IB", .ib), ("#UB", .ub),
   ("#RES", .res), ("#VER", .ver), ("#TRANS", .trans)]

/-- First table entry whose tag prefixes the line. -/
def findKind : List (String × RecordKind) → List Char → RecordKind
  | [], _ => .unknown
  | (t, k) :: rest, line =>
    if lstartsWith t line then k else findKind rest line

/-- First matching tag prefix, mirroring the `elif` chain of `parse_sie`. -/
def recordKind (line : List Char) : RecordKind :=
  findKind tagTable line

/-! ## Scan state and per-record handlers -/

/-- The `current_voucher` dictionary built by the `#VER` handler. -/
structure Voucher where
  voucher_series : List Char
  voucher_index : List Char
  date : List Char
  description : List Char
deriving DecidableEq, Repr

/-- Mutable state of the single forward scan of `parse_sie`. -/
structure ScanState where
  sie : SieFile
  current_voucher : Option Voucher
  in_voucher_block : Bool
  ktyp_records : List (List Char × List Char)
  sru_records : List (List Char × List Char)
deriving DecidableEq, Repr

/-- Initial scan state: empty `SieFile`, no voucher, outside any block. -/
def initialState : ScanState :=
  { sie := {}, current_voucher := none, in_voucher_block := false,
    ktyp_records := [], sru_records := [] }

/-- Scan-time `SieParseError` carrying the caught exception text, the 1-based
line number and the stripped line, as raised by the `except` clause
`raise SieParseError(f"Error parsing line: ...", line_num, line)`. -/
def mkScanError (line_num : Nat) (line : List Char) (excText : List Char) :
    SieParseError :=
  { message := "Error parsing line: ".data ++ excText,
    line_number := some line_num, line_content := some line }

/-- Text of the `ValueError` raised by Python `float`. -/
def floatErrText (s : List Char) : List Char :=
  "could not convert string to float: \x27".data ++ s ++ "\x27".data

/-- Text of the `ValueError` raised by Python `int`. -/
def intErrText (s : List Char) : List Char :=
  "invalid literal for int() with base 10: \x27".data ++ s ++ "\x27".data

/-- Text of Python's `IndexError` on list subscripts. -/
def indexErrText : List Char := "list index out of range".data

/-- Value of `line.split(' ', 1)[1].strip() if ' ' in line else ""`, the
guarded scalar-metadata decode. -/
def tailField (line : List Char) : List Char :=
  if line.contains ' ' then pyStrip ((pySplitMax 1 line).getD 1 []) else []

/-- Value of `_extract_quoted_value(line) or line.split(' ', 1)[1].strip()
if ' ' in line else ""` (the `#PROGRAM` / `#FNR` decode; by Python
precedence the whole `or` expression is conditional on `' ' in line`). -/
def quotedOrTailField (line : List Char) : List Char :=
  if line.contains ' ' then
    let q := extractQuotedValue line
    if q.isEmpty then pyStrip ((pySplitMax 1 line).getD 1 []) else q
  else []

/-- The `#ADRESS` character scanner: from index 7 on, a `"` toggles between
skipping and copying; each closing quote emits one field, an unterminated
field is dropped. -/
def adressParts : List Char → Bool → List Char → List (List Char)
  | [], _, _ => []
  | c :: cs, inQuotes, cur =>
    if c = '"' then
      if inQuotes then cur :: adressParts cs false []
      else adressParts cs true []
    else if inQuotes then adressParts cs inQuotes (cur ++ [c])
    else adressParts cs inQuotes cur

/-- `#ADRESS` handler: up to four quoted fields fill the contact fields
(the four `len(parts) >= i` guards each set one distinct field). -/
def handleAdress (line : List Char) (st : ScanState) : ScanState :=
  let parts := adressParts (line.drop 7) false []
  { st with sie := { st.sie with
      contact_person :=
        if 1 ≤ parts.length then parts.getD 0 [] else st.sie.contact_person,
      address_line1 :=
        if 2 ≤ parts.length then parts.getD 1 [] else st.sie.address_line1,
      address_line2 :=
        if 3 ≤ parts.length then parts.getD 2 [] else st.sie.address_line2,
      phone := if 4 ≤ parts.length then parts.getD 3 [] else st.sie.phone } }

/-- `#ORGNR` handler: `line.split(' ', 1)[1].strip()` with no guard — a line
without a space raises `IndexError`, converted to a `SieParseError`. -/
def handleOrgnr (line_num : Nat) (line : List Char) (st : ScanState) :
    Except SieParseError ScanState :=
  match pySplitMax 1 line with
  | _ :: t :: _ =>
    .ok { st with sie := { st.sie with company_id := pyStrip t } }
  | _ => .error (mkScanError line_num line indexErrText)

/-- `#RAR` handler: a period-index token that fails the
`lstrip('-').isdigit()` guard defaults the period to `0`; `int` is only
called when the guard passes and can still raise (repeated minus signs). -/
def handleRar (line_num : Nat) (line : List Char) (st : ScanState) :
    Except SieParseError ScanState :=
  let parts := pySplitSp line
  if 3 ≤ parts.length then
    let p1 := parts.getD 1 []
    let periodE : Except SieParseError Int :=
      if pyIsdigit (dropLeadingMinus p1) then
        match pyIntParse p1 with
        | some n => .ok n
        | none => .error (mkScanError line_num line (intErrText p1))
      else .ok 0
    match periodE with
    | .error e => .error e
    | .ok period =>
      if period = 0 then
        .ok { st with sie :=
          { st.sie with
            period_start := parts.getD 2 [],
            period_end := if 3 < parts.length then parts.getD 3 [] else [] } }
      else .ok st
  else .ok st

/-- `#KONTO` handler: inserts/overwrites the account with the de-quoted name
and the BAS default classification (defined below as
`get_bas_account_type`). -/
def handleKonto (basType : List Char → AccountType) (line : List Char)
    (st : ScanState) : ScanState :=
  let parts := pySplitMax 2 line
  if 3 ≤ parts.length then
    let number := pyStrip (parts.getD 1 [])
    let name := dequoteIfWrapped (pyStrip (parts.getD 2 []))
    let acc : SieAccount :=
      { number := number, name := name, type := basType number, sru_code := [] }
    { st with sie := { st.sie with accounts := upsertD number acc st.sie.accounts } }
  else st

/-- `#KTYP` handler: buffers `(account id, code)` for the deferred pass. -/
def handleKtyp (line : List Char) (st : ScanState) : ScanState :=
  let parts := pySplitWs line
  if 3 ≤ parts.length then
    { st with ktyp_records :=
        upsertD (parts.getD 1 []) (parts.getD 2 []) st.ktyp_records }
  else st

/-- `#SRU` handler: buffers `(account id, code)` for the deferred pass. -/
def handleSru (line : List Char) (st : ScanState) : ScanState :=
  let parts := pySplitWs line
  if 3 ≤ parts.length then
    { st with sru_records :=
        upsertD (parts.getD 1 []) (parts.getD 2 []) st.sru_records }
  else st

/-- `#DIM` handler. -/
def handleDim (line : List Char) (st : ScanState) : ScanState :=
  let parts := pySplitMax 2 line
  if 3 ≤ parts.length then
    let dim_number := parts.getD 1 []
    let dim_name := dequoteIfWrapped (pyStrip (parts.getD 2 []))
    let d : SieDimension := { number := dim_number, name := dim_name }
    { st with sie :=
        { st.sie with dimensions := upsertD dim_number d st.sie.dimensions } }
  else st

/-- `#OBJEKT` handler. -/
def handleObjekt (line : List Char) (st : ScanState) : ScanState :=
  let parts := pySplitMax 3 line
  if 4 ≤ parts.length then
    let dimension := parts.getD 1 []
    let obj_number := parts.getD 2 []
    let obj_name := dequoteIfWrapped (pyStrip (parts.getD 3 []))
    let ob : SieObject :=
      { dimension := dimension, number := obj_number, name := obj_name }
    let key := dimension ++ [':'] ++ obj_number
    { st with sie := { st.sie with objects := upsertD key ob st.sie.objects } }
  else st

/-- Shared decode of the `#IB` / `#UB` / `#RES` balance records: period,
account, amount, optional quantity; `none` models the `len(parts) >= 4`
guard failing (the record is skipped without error). -/
def parseBalance (line_num : Nat) (line : List Char) :
    Except SieParseError (Option SieBalance) :=
  let parts := pySplitWs line
  if 4 ≤ parts.length then
    match pyIntParse (parts.getD 1 []) with
    | none => .error (mkScanError line_num line (intErrText (parts.getD 1 [])))
    | some period =>
      match pyFloatParse (replaceComma (parts.getD 3 [])) with
      | none => .error (mkScanError line_num line
          (floatErrText (replaceComma (parts.getD 3 []))))
      | some amount =>
        if 4 < parts.length then
          match pyFloatParse (replaceComma (parts.getD 4 [])) with
          | none => .error (mkScanError line_num line
              (floatErrText (replaceComma (parts.getD 4 []))))
          | some quantity =>
            .ok (some { account_number := parts.getD 2 [], period := period,
                        amount := amount, quantity := quantity })
        else
          .ok (some { account_number := parts.getD 2 [], period := period,
                      amount := amount, quantity := pyZero })
  else .ok none

/-- `#IB` handler. -/
def handleIB (line_num : Nat) (line : List Char) (st : ScanState) :
    Except SieParseError ScanState :=
  match parseBalance line_num line with
  | .error e => .error e
  | .ok none => .ok st
  | .ok (some b) =>
    .ok { st with sie :=
      { st.sie with opening_balances := st.sie.opening_balances ++ [b] } }

/-- `#UB` handler. -/
def handleUB (line_num : Nat) (line : List Char) (st : ScanState) :
    Except SieParseError ScanState :=
  match parseBalance line_num line with
  | .error e => .error e
  | .ok none => .ok st
  | .ok (some b) =>
    .ok { st with sie :=
      { st.sie with closing_balances := st.sie.closing_balances ++ [b] } }

/-- `#RES` handler. -/
def handleRes (line_num : Nat) (line : List Char) (st : ScanState) :
    Except SieParseError ScanState :=
  match parseBalance line_num line with
  | .error e => .error e
  | .ok none => .ok st
  | .ok (some b) =>
    .ok { st with sie :=
      { st.sie with result_balances := st.sie.result_balances ++ [b] } }

/-- Scanner of the `#VER` multi-word quoted description: appends tokens
until one ends in a closing quote (whose quote is removed); an unterminated
description keeps all remaining tokens. -/
def verDescTail : List (List Char) → List (List Char)
  | [] => []
  | p :: ps =>
    if p.getLast? = some '"' then [p.dropLast]
    else p :: verDescTail ps

/-- The `#VER` description decode: quoted single token, quoted multi-token,
or a single bare token. -/
def verDescription (parts : List (List Char)) : List Char :=
  if 5 ≤ parts.length then
    let p4 := parts.getD 4 []
    if p4.head? = some '"' && p4.getLast? = some '"' then (p4.drop 1).dropLast
    else if p4.head? = some '"' then
      List.intercalate [' '] (p4.drop 1 :: verDescTail (parts.drop 5))
    else p4
  else []

/-- `#VER` handler: only honoured outside an open voucher block. -/
def handleVer (line : List Char) (st : ScanState) : ScanState :=
  if st.in_voucher_block then st
  else
    let parts := pySplitSp line
    if 4 ≤ parts.length then
      let cv : Voucher :=
        { voucher_series := parts.getD 1 [], voucher_index := parts.getD 2 [],
          date := parts.getD 3 [], description := verDescription parts }
      { st with current_voucher := some cv }
    else st

/-- Object-list location in a `#TRANS` rest: a leading `{` with a closing
`}` yields the enclosed text and the trimmed remainder; a leading `{`
without `}` is treated as no objects with the rest left intact. -/
def transSplitObjects (rest : List Char) : List Char × List Char :=
  if rest.head? = some '\x7b' then
    match rest.findIdx? (· = '\x7d') with
    | some i => ((rest.take i).drop 1, pyStrip (rest.drop (i + 1)))
    | none => ([], rest)
  else ([], rest)

/-- `#TRANS` handler: only processed inside an open block with an active
voucher; the amount is the first whitespace token of the remainder, with
`{}` (and the unreachable empty token) decoding to `0.0`. -/
def handleTrans (line_num : Nat) (line : List Char) (st : ScanState) :
    Except SieParseError ScanState :=
  match st.in_voucher_block, st.current_voucher with
  | true, some cv =>
    let parts := pySplitMax 2 line
    if 3 ≤ parts.length then
      let account_number := parts.getD 1 []
      let rest := pyStrip (parts.getD 2 [])
      let remaining := (transSplitObjects rest).2
      let remaining_parts := pySplitWs remaining
      let amountE : Except SieParseError PyFloat :=
        match remaining_parts.head? with
        | none => .ok pyZero
        | some amount_str =>
          if !amount_str.isEmpty && amount_str ≠ "\x7b\x7d".data then
            match pyFloatParse (replaceComma amount_str) with
            | some v => .ok v
            | none => .error (mkScanError line_num line
                (floatErrText (replaceComma amount_str)))
          else .ok pyZero
      match amountE with
      | .error e => .error e
      | .ok amount =>
        let entry : SieEntry :=
          { date := cv.date, account_number := account_number,
            amount := amount, description := cv.description,
            voucher_index := some (cv.voucher_series ++ cv.voucher_index) }
        .ok { st with sie :=
          { st.sie with entries := st.sie.entries ++ [entry] } }
    else .ok st
  | _, _ => .ok st

/-! ## Classification engine and top-level parse -/

/-- `get_bas_account_type`: BAS default classification from the account
number, reproduced branch by branch from the source. -/
def get_bas_account_type (account_number : List Char) : AccountType :=
  if account_number.isEmpty || !pyIsdigit account_number then .EXPENSE
  else
    match account_number.head? with
    | some '1' => .ASSET
    | some '2' => .LIABILITY
    | some '3' => .INCOME
    | some '4' => .EXPENSE
    | some '5' => .EXPENSE
    | some '6' => .EXPENSE
    | some '7' => .EXPENSE
    | some '8' =>
      if 4 ≤ account_number.length then
        if lstartsWith "801" account_number then .INCOME
        else if lstartsWith "802" account_number then .EXPENSE
        else if lstartsWith "803" account_number then .INCOME
        else if lstartsWith "807" account_number then .EXPENSE
        else if lstartsWith "808" account_number then .INCOME
        else if lstartsWith "81" account_number then .INCOME
        else if lstartsWith "82" account_number then .INCOME
        else if lstartsWith "83" account_number then .INCOME
        else if lstartsWith "84" account_number then .EXPENSE
        else if lstartsWith "85" account_number || lstartsWith "86" account_number
            || lstartsWith "87" account_number then .EXPENSE
        else if lstartsWith "88" account_number then .EXPENSE
        else if lstartsWith "89" account_number then .EXPENSE
        else .EXPENSE
      else .EXPENSE
    | _ => .EXPENSE

/-- Dispatch of one stripped `#`-record line to its handler, mirroring the
`elif` chain of `parse_sie`. -/
def processTag (line_num : Nat) (line : List Char) (st : ScanState) :
    Except SieParseError ScanState :=
  match recordKind line with
    | .flagga => .ok { st with sie := { st.sie with file_flag := tailField line } }
    | .format => .ok { st with sie := { st.sie with file_format := tailField line } }
    | .sietyp => .ok { st with sie := { st.sie with sie_type := tailField line } }
    | .program =>
      .ok { st with sie := { st.sie with program := quotedOrTailField line } }
    | .gen =>
      .ok { st with sie := { st.sie with generation_date := tailField line } }
    | .fnr =>
      .ok { st with sie := { st.sie with file_number := quotedOrTailField line } }
    | .valuta => .ok { st with sie := { st.sie with currency := tailField line } }
    | .taxar => .ok { st with sie := { st.sie with tax_year := tailField line } }
    | .kptyp =>
      .ok { st with sie := { st.sie with account_plan_type := tailField line } }
    | .adress => .ok (handleAdress line st)
    | .fnamn =>
      .ok { st with sie := { st.sie with company_name := extractQuotedValue line } }
    | .orgnr => handleOrgnr line_num line st
    | .rar => handleRar line_num line st
    | .konto => .ok (handleKonto get_bas_account_type line st)
    | .ktyp => .ok (handleKtyp line st)
    | .sru => .ok (handleSru line st)
    | .dim => .ok (handleDim line st)
    | .objekt => .ok (handleObjekt line st)
    | .ib => handleIB line_num line st
    | .ub => handleUB line_num line st
    | .res => handleRes line_num line st
    | .ver => .ok (handleVer line st)
    | .trans => handleTrans line_num line st
    | .unknown => .ok st

/-- One iteration of the forward scan of `parse_sie`: strip, skip blanks,
handle block delimiters, require the `#` marker, then dispatch on the tag. -/
def processLine (line_num : Nat) (raw : List Char) (st : ScanState) :
    Except SieParseError ScanState :=
  let line := pyStrip raw
  if line.isEmpty then .ok st
  else if line = ['\x7b'] then .ok { st with in_voucher_block := true }
  else if line = ['\x7d'] then
    .ok { st with in_voucher_block := false, current_voucher := none }
  else if !lstartsWith "#" line then .ok st
  else processTag line_num line st

/-- The forward scan over the enumerated lines (first pass). -/
def scanLines : Nat → List (List Char) → ScanState → Except SieParseError ScanState
  | _, [], st => .ok st
  | n, l :: ls, st =>
    match processLine n l st with
    | .error e => .error e
    | .ok st1 => scanLines (n + 1) ls st1

/-- Second pass: applies the buffered `#KTYP` records in buffer order,
aborting on the first invalid type code; a missing account is synthesised
with the placeholder name `"Account " + id`. -/
def apply_ktyp_records (accounts : List (List Char × SieAccount)) :
    List (List Char × List Char) →
    Except SieParseError (List (List Char × SieAccount))
  | [] => .ok accounts
  | (account_number, code) :: rest =>
    match AccountType.from_sie_code code with
    | none =>
      let msg :=
        "Invalid account type in KTYP: Unknown SIE account type code: ".data
          ++ code
      let content := "#KTYP ".data ++ account_number ++ [' '] ++ code
      .error { message := msg, line_number := none, line_content := some content }
    | some t =>
      if memD account_number accounts then
        apply_ktyp_records
          (updateD account_number (fun a => { a with type := t }) accounts) rest
      else
        apply_ktyp_records
          (accounts ++ [(account_number,
            { number := account_number,
              name := "Account ".data ++ account_number,
              type := t, sru_code := [] })]) rest

/-- Third pass: attaches buffered `#SRU` codes to accounts that exist,
silently dropping codes for unknown accounts. -/
def apply_sru_records (accounts : List (List Char × SieAccount)) :
    List (List Char × List Char) → List (List Char × SieAccount)
  | [] => accounts
  | (account_number, code) :: rest =>
    if memD account_number accounts then
      apply_sru_records
        (updateD account_number (fun a => { a with sru_code := code }) accounts)
        rest
    else apply_sru_records accounts rest

/-- `parse_sie` after line splitting: forward scan from line 1, then the
`#KTYP` pass, then the `#SRU` pass. -/
def parseSieLines (lines : List (List Char)) : Except SieParseError SieFile :=
  match scanLines 1 lines initialState with
  | .error e => .error e
  | .ok st =>
    match apply_ktyp_records st.sie.accounts st.ktyp_records with
    | .error e => .error e
    | .ok accs =>
      .ok { st.sie with accounts := apply_sru_records accs st.sru_records }

/-- `parse_sie`: BOM removal, `splitlines`, then the three phases. -/
def parse_sie (content : List Char) : Except SieParseError SieFile :=
  let content1 := if content.head? = some '\uFEFF' then content.drop 1 else content
  parseSieLines (pySplitlines content1)

/-! ## File-level entry point (`parse_sie_file`)

File IO cannot be embedded; the `open`/`read`/decode boundary is modelled
as an abstract outcome: the file is missing, its bytes fail to decode under
the chosen encoding (with the text of the `UnicodeDecodeError`), or it
decodes to text. -/

/-- Outcome of `open(file_path, 'r', encoding=...)` followed by `read()`. -/
inductive ReadOutcome where
  | fileNotFound
  | decodeFailure (excText : List Char)
  | content (text : List Char)
deriving DecidableEq, Repr

/-- Errors observable from `parse_sie_file`: the `SieParseError` exception
class (also used for grammar/numeric failures) or the built-in
`FileNotFoundError`, which the function does not catch. -/
inductive SieFileOutcomeError where
  | sieParse (e : SieParseError)
  | fileNotFound
deriving DecidableEq, Repr

/-- `parse_sie_file`: default encoding `cp437`; a `UnicodeDecodeError` is
caught and re-raised as a `SieParseError` whose message names the attempted
encoding; `FileNotFoundError` propagates unchanged. -/
def parse_sie_file (outcome : ReadOutcome) (encoding : Option (List Char)) :
    Except SieFileOutcomeError SieFile :=
  let encoding_to_use := encoding.getD "cp437".data
  match outcome with
  | .fileNotFound => .error .fileNotFound
  | .decodeFailure excText =>
    .error (.sieParse
      { message := "File is not properly encoded in ".data ++ encoding_to_use ++
          ". According to the SIE 4B specification, SIE files must use CP437 encoding (IBM PC 8-bits extended ASCII). Error: ".data
            ++ excText,
        line_number := none, line_content := none })
  | .content text =>
    match parse_sie text with
    | .error e => .error (.sieParse e)
    | .ok f => .ok f

/-! ## Claim-level vocabulary -/

/-- Two tag strings disagreeing at some common position: no line starts
with both. -/
def incompat : List Char → List Char → Bool
  | [], _ => false
  | _, [] => false
  | a :: as, b :: bs => a != b || incompat as bs

/-- Effect of one scanned line on the buffered `#KTYP` code of a fixed
account id: the code becomes the line's third field when the line
dispatches to the `#KTYP` handler with enough fields and its second field
is the id; any other line leaves the buffered code unchanged. -/
def ktypCodeStep (id : List Char) (acc : Option (List Char)) (raw : List Char) :
    Option (List Char) :=
  let line := pyStrip raw
  let parts := pySplitWs line
  if recordKind line = RecordKind.ktyp ∧ 3 ≤ parts.length ∧ parts.getD 1 [] = id
  then some (parts.getD 2 [])
  else acc

/-- The `#KTYP` code buffered for `id` after scanning all lines (the last
override record for the id wins). -/
def lastKtypLines (lines : List (List Char)) (id : List Char) :
    Option (List Char) :=
  lines.foldl (ktypCodeStep id) none

/-- Effect of one scanned line on the buffered `#SRU` code of a fixed id. -/
def sruCodeStep (id : List Char) (acc : Option (List Char)) (raw : List Char) :
    Option (List Char) :=
  let line := pyStrip raw
  let parts := pySplitWs line
  if recordKind line = RecordKind.sru ∧ 3 ≤ parts.length ∧ parts.getD 1 [] = id
  then some (parts.getD 2 [])
  else acc

/-- The `#SRU` code buffered for `id` after scanning all lines (the last
tax-code record for the id wins). -/
def lastSruLines (lines : List (List Char)) (id : List Char) :
    Option (List Char) :=
  lines.foldl (sruCodeStep id) none

/-- Effect of one scanned line on the account stored under `id`: a
dispatched `#KONTO` declaration for the id overwrites it with the declared
name and the BAS default classification. -/
def kontoAccStep (id : List Char) (acc : Option SieAccount) (raw : List Char) :
    Option SieAccount :=
  let line := pyStrip raw
  let parts := pySplitMax 2 line
  if recordKind line = RecordKind.konto ∧ 3 ≤ parts.length ∧
      pyStrip (parts.getD 1 []) = id then
    some { number := id, name := dequoteIfWrapped (pyStrip (parts.getD 2 [])),
           type := get_bas_account_type id, sru_code := [] }
  else acc

/-- The account stored under `id` at the end of the forward scan. -/
def lastKontoLines (lines : List (List Char)) (id : List Char) :
    Option SieAccount :=
  lines.foldl (kontoAccStep id) none

/-- Effect of one scanned line on the whole `#KTYP` buffer. -/
def ktypRecStep (d : List (List Char × List Char)) (raw : List Char) :
    List (List Char × List Char) :=
  let line := pyStrip raw
  let parts := pySplitWs line
  if recordKind line = RecordKind.ktyp ∧ 3 ≤ parts.length then
    upsertD (parts.getD 1 []) (parts.getD 2 []) d
  else d

/-- Effect of one scanned line on the whole `#SRU` buffer. -/
def sruRecStep (d : List (List Char × List Char)) (raw : List Char) :
    List (List Char × List Char) :=
  let line := pyStrip raw
  let parts := pySplitWs line
  if recordKind line = RecordKind.sru ∧ 3 ≤ parts.length then
    upsertD (parts.getD 1 []) (parts.getD 2 []) d
  else d

/-- Effect of one scanned line on the whole accounts dictionary. -/
def kontoRecStep (d : List (List Char × SieAccount)) (raw : List Char) :
    List (List Char × SieAccount) :=
  let line := pyStrip raw
  let parts := pySplitMax 2 line
  if recordKind line = RecordKind.konto ∧ 3 ≤ parts.length then
    let number := pyStrip (parts.getD 1 [])
    upsertD number
      { number := number, name := dequoteIfWrapped (pyStrip (parts.getD 2 [])),
        type := get_bas_account_type number, sru_code := [] } d
  else d

/-- A line that is a type-override record (`#KTYP`) for the given id with
enough fields to be buffered. -/
def isKtypRecordFor (id : List Char) (raw : List Char) : Bool :=
  let line := pyStrip raw
  let parts := pySplitWs line
  lstartsWith "#KTYP" line && decide (3 ≤ parts.length) &&
    decide (parts.getD 1 [] = id)

/-- A line that is an account declaration (`#KONTO`) for the given id with
enough fields to be stored. -/
def isKontoRecordFor (id : List Char) (raw : List Char) : Bool :=
  let line := pyStrip raw
  let parts := pySplitMax 2 line
  lstartsWith "#KONTO" line && decide (3 ≤ parts.length) &&
    decide (pyStrip (parts.getD 1 []) = id)

/-- The situations in which scanning one stripped line raises: a numeric
decode attempted by the line's handler fails (the `#RAR` year index passing
the digit guard but rejected by `int`, a balance record's period index,
amount or quantity, or an accepted ledger line's amount token), or the
unguarded organisation-id record has no space after its tag. -/
def lineDecodeFails (in_block : Bool) (has_voucher : Bool) (line : List Char) :
    Bool :=
  match recordKind line with
  | .orgnr => !line.contains ' '
  | .rar =>
    let parts := pySplitSp line
    decide (3 ≤ parts.length) && pyIsdigit (dropLeadingMinus (parts.getD 1 []))
      && (pyIntParse (parts.getD 1 [])).isNone
  | .ib | .ub | .res =>
    let parts := pySplitWs line
    decide (4 ≤ parts.length) &&
      ((pyIntParse (parts.getD 1 [])).isNone ||
       (pyFloatParse (replaceComma (parts.getD 3 []))).isNone ||
       (decide (4 < parts.length) &&
        (pyFloatParse (replaceComma (parts.getD 4 []))).isNone))
  | .trans =>
    let parts := pySplitMax 2 line
    in_block && has_voucher && decide (3 ≤ parts.length) &&
      (match (pySplitWs (transSplitObjects (pyStrip (parts.getD 2 []))).2).head? with
       | none => false
       | some a => !a.isEmpty && decide (a ≠ "\x7b\x7d".data) &&
           (pyFloatParse (replaceComma a)).isNone)
  | _ => false

/-- The Classification Engine exactly as claim C3 words it, for comparison
with `get_bas_account_type`: the claim's 8xxx prefix sub-table carries no
requirement on the length of the identifier. -/
def claimEngineC3 (id : List Char) : AccountType :=
  if id.isEmpty || !pyIsdigit id then .EXPENSE
  else
    match id.head? with
    | some '1' => .ASSET
    | some '2' => .LIABILITY
    | some '3' => .INCOME
    | some '4' | some '5' | some '6' | some '7' => .EXPENSE
    | some '8' =>
      if lstartsWith "801" id || lstartsWith "803" id || lstartsWith "808" id
          || lstartsWith "81" id || lstartsWith "82" id || lstartsWith "83" id
      then .INCOME
      else .EXPENSE
    | _ => .EXPENSE

/-- Decidable equality of parse outcomes, for concrete evaluation. -/
instance : DecidableEq (Except SieParseError SieFile) := fun a b =>
  match a, b with
  | .ok x, .ok y =>
    if h : x = y then .isTrue (by rw [h]) else .isFalse (by simp [h])
  | .error x, .error y =>
    if h : x = y then .isTrue (by rw [h]) else .isFalse (by simp [h])
  | .ok _, .error _ => .isFalse (fun h => Except.noConfusion h)
  | .error _, .ok _ => .isFalse (fun h => Except.noConfusion h)

/-- Decidable equality of `parse_sie_file` outcomes. -/
instance : DecidableEq (Except SieFileOutcomeError SieFile) := fun a b =>
  match a, b with
  | .ok x, .ok y =>
    if h : x = y then .isTrue (by rw [h]) else .isFalse (by simp [h])
  | .error x, .error y =>
    if h : x = y then .isTrue (by rw [h]) else .isFalse (by simp [h])
  | .ok _, .error _ => .isFalse (fun h => Except.noConfusion h)
  | .error _, .ok _ => .isFalse (fun h => Except.noConfusion h)

/-- Decidable equality of scan outcomes. -/
instance : DecidableEq (Except SieParseError ScanState) := fun a b =>
  match a, b with
  | .ok x, .ok y =>
    if h : x = y then .isTrue (by rw [h]) else .isFalse (by simp [h])
  | .error x, .error y =>
    if h : x = y then .isTrue (by rw [h]) else .isFalse (by simp [h])
  | .ok _, .error _ => .isFalse (fun h => Except.noConfusion h)
  | .error _, .ok _ => .isFalse (fun h => Except.noConfusion h)

/-- Keys of an association list, in order. -/
def keysOf (d : List (List Char × α)) : List (List Char) :=
  d.map Prod.fst

/-! ## Concrete scenarios used to settle the claims -/

/-- An active voucher header, as the `#VER` handler builds it. -/
def c1Voucher : Voucher :=
  { voucher_series := "A".data, voucher_index := "1".data,
    date := "20240101".data, description := "Inkop".data }

/-- Scan state inside an open block with `c1Voucher` active. -/
def c1BlockState : ScanState :=
  { sie := {}, current_voucher := some c1Voucher, in_voucher_block := true,
    ktyp_records := [], sru_records := [] }

/-- An account declaration followed by two `#KTYP` overrides for its id. -/
def c2Lines : List (List Char) :=
  ["#KONTO 1910 Kassa".data, "#KTYP 1910 K".data, "#KTYP 1910 S".data]

/-- The account `c2Lines` produces: the later override code `S` wins. -/
def c2Acct : SieAccount :=
  { number := "1910".data, name := "Kassa".data,
    type := AccountType.LIABILITY, sru_code := [] }

/-- The file `c2Lines` parses to. -/
def c2File : SieFile := { accounts := [("1910".data, c2Acct)] }

/-- A type override with no declaration anywhere in the input. -/
def c2WitLines : List (List Char) := ["#KTYP 5000 I".data]

/-- The placeholder account synthesised for the undeclared id `5000`. -/
def c2WitAcct : SieAccount :=
  { number := "5000".data, name := "Account 5000".data,
    type := AccountType.INCOME, sru_code := [] }

/-- The file `c2WitLines` parses to. -/
def c2WitFile : SieFile := { accounts := [("5000".data, c2WitAcct)] }

/-- A three-character account number in the 8xxx range. -/
def c3Lines : List (List Char) := ["#KONTO 801 Forsaljning".data]

/-- The account `c3Lines` produces. -/
def c3Acct : SieAccount :=
  { number := "801".data, name := "Forsaljning".data,
    type := AccountType.EXPENSE, sru_code := [] }

/-- The file `c3Lines` parses to. -/
def c3File : SieFile := { accounts := [("801".data, c3Acct)] }

/-- A plain asset-account declaration. -/
def c3WitLines : List (List Char) := ["#KONTO 1910 Kassa".data]

/-- The account `c3WitLines` produces. -/
def c3WitAcct : SieAccount :=
  { number := "1910".data, name := "Kassa".data, type := AccountType.ASSET,
    sru_code := [] }

/-- The file `c3WitLines` parses to. -/
def c3WitFile : SieFile := { accounts := [("1910".data, c3WitAcct)] }

/-- The spec's concrete bad-amount line. -/
def c4IBLine : List Char := "#IB 0 1910 notanumber".data

/-- The error a bare organisation-id record raises on line 1. -/
def c4OrgErr : SieParseError := mkScanError 1 "#ORGNR".data indexErrText

/-- A declaration followed by two `#SRU` records for its id. -/
def c5Lines : List (List Char) :=
  ["#KONTO 1910 Kassa".data, "#SRU 1910 7201".data, "#SRU 1910 7301".data]

/-- The account `c5Lines` produces: the later tax code wins. -/
def c5Acct : SieAccount :=
  { number := "1910".data, name := "Kassa".data, type := AccountType.ASSET,
    sru_code := "7301".data }

/-- The file `c5Lines` parses to. -/
def c5File : SieFile := { accounts := [("1910".data, c5Acct)] }

/-- A declaration and one tax-code record for it. -/
def c5WitLines : List (List Char) :=
  ["#KONTO 1910 Kassa".data, "#SRU 1910 7201".data]

/-- The account `c5WitLines` declares, before the tax-code pass. -/
def c5WitAcct : SieAccount :=
  { number := "1910".data, name := "Kassa".data, type := AccountType.ASSET,
    sru_code := [] }

/-- Scan state after the forward scan of `c5WitLines`. -/
def c5WitState : ScanState :=
  { sie := { accounts := [("1910".data, c5WitAcct)] },
    current_voucher := none, in_voucher_block := false,
    ktyp_records := [], sru_records := [("1910".data, "7201".data)] }

/-- A period record with a non-numeric period-index token. -/
def c6Lines : List (List Char) := ["#RAR x 20240101 20241231".data]

/-- The file `c6Lines` parses to: the period fields are set. -/
def c6File : SieFile :=
  { period_start := "20240101".data, period_end := "20241231".data }

/-- A period record with index token `0`. -/
def c6WitRaw : List Char := "#RAR 0 20240101 20241231".data

/-- Scan state after processing `c6WitRaw` from the initial state. -/
def c6WitState : ScanState :=
  { sie := { period_start := "20240101".data, period_end := "20241231".data },
    current_voucher := none, in_voucher_block := false,
    ktyp_records := [], sru_records := [] }

/-- A company-name record with a bare trailing token and no quotes. -/
def c7Lines : List (List Char) := ["#FNAMN Acme".data]

/-- The file `c7Lines` parses to: nothing is set. -/
def c7File : SieFile := {}

/-- A company-name record with a quoted value. -/
def c7WitRaw : List Char := "#FNAMN \"Acme AB\"".data

/-- The error a bare `#ORGNR` line raises. -/
def c8Err : SieParseError := mkScanError 1 "#ORGNR".data indexErrText

/-- The `SieParseError` wrapping a decode failure under the default
encoding. -/
def c9DecErr : SieParseError :=
  { message := "File is not properly encoded in ".data ++ "cp437".data ++
      ". According to the SIE 4B specification, SIE files must use CP437 encoding (IBM PC 8-bits extended ASCII). Error: ".data
        ++ "bad byte".data,
    line_number := none, line_content := none }

/-- The `SieParseError` a bad numeric field raises from decoded content. -/
def c9NumErr : SieParseError :=
  mkScanError 1 "#IB 0 1910 bad".data (floatErrText "bad".data)

/-- A ledger line whose rest starts `\x7b` and has no closing `\x7d`. -/
def c10WitRaw : List Char := "#TRANS 1910 \x7b1 \x22M\x22 100".data

/-- An active voucher header for the C10 scenario. -/
def c10Voucher : Voucher :=
  { voucher_series := "B".data, voucher_index := "7".data,
    date := "20240202".data, description := "Hyra".data }

/-- Scan state inside an open block with `c10Voucher` active. -/
def c10BlockState : ScanState :=
  { sie := {}, current_voucher := some c10Voucher, in_voucher_block := true,
    ktyp_records := [], sru_records := [] }

/-! ## Lemmas: dictionaries -/

theorem lookupD_upsertD_self (k : List Char) (v : α) (d : List (List Char × α)) :
    lookupD k (upsertD k v d) = some v := by
  induction d with
  | nil => simp [upsertD, lookupD]
  | cons p t ih =>
    obtain ⟨k', v'⟩ := p
    by_cases hk : k' = k <;> simp [upsertD, lookupD, hk, ih]

theorem lookupD_upsertD_ne {k1 k : List Char} (h : k1 ≠ k) (v : α)
    (d : List (List Char × α)) :
    lookupD k1 (upsertD k v d) = lookupD k1 d := by
  have h2 : k ≠ k1 := Ne.symm h
  induction d with
  | nil => simp [upsertD, lookupD, h2]
  | cons p t ih =>
    obtain ⟨k', v'⟩ := p
    by_cases hk : k' = k
    · subst hk
      simp [upsertD, lookupD, h2]
    · simp [upsertD, lookupD, hk, ih]

theorem lookupD_updateD_self (k : List Char) (f : α → α) (d : List (List Char × α)) :
    lookupD k (updateD k f d) = (lookupD k d).map f := by
  induction d with
  | nil => simp [updateD, lookupD]
  | cons p t ih =>
    obtain ⟨k', v'⟩ := p
    by_cases hk : k' = k <;> simp [updateD, lookupD, hk, ih]

theorem lookupD_updateD_ne {k1 k : List Char} (h : k1 ≠ k) (f : α → α)
    (d : List (List Char × α)) :
    lookupD k1 (updateD k f d) = lookupD k1 d := by
  induction d with
  | nil => simp [updateD]
  | cons p t ih =>
    obtain ⟨k', v'⟩ := p
    by_cases hk : k' = k
    · subst hk
      simp [updateD, lookupD, Ne.symm h, ih]
    · simp [updateD, lookupD, hk, ih]

theorem lookupD_append (k : List Char) (d1 d2 : List (List Char × α)) :
    lookupD k (d1 ++ d2) =
      match lookupD k d1 with
      | some v => some v
      | none => lookupD k d2 := by
  induction d1 with
  | nil => simp [lookupD]
  | cons p t ih =>
    obtain ⟨k', v'⟩ := p
    by_cases hk : k' = k <;> simp [lookupD, hk, ih]

theorem lookupD_append_single_ne {k1 k : List Char} (h : k1 ≠ k) (v : α)
    (d : List (List Char × α)) :
    lookupD k1 (d ++ [(k, v)]) = lookupD k1 d := by
  rw [lookupD_append]
  cases hl : lookupD k1 d <;> simp [lookupD, Ne.symm h]

theorem memD_updateD (k1 k : List Char) (f : α → α) (d : List (List Char × α)) :
    memD k1 (updateD k f d) = memD k1 d := by
  by_cases hk : k1 = k
  · subst hk
    simp only [memD, lookupD_updateD_self]
    cases lookupD k1 d <;> simp
  · simp [memD, lookupD_updateD_ne hk]

theorem memD_append_single_ne {k1 k : List Char} (h : k1 ≠ k) (v : α)
    (d : List (List Char × α)) :
    memD k1 (d ++ [(k, v)]) = memD k1 d := by
  simp [memD, lookupD_append_single_ne h]

theorem keysOf_cons (p : List Char × α) (t : List (List Char × α)) :
    keysOf (p :: t) = p.1 :: keysOf t := rfl

theorem upsertD_cons_self (k : List Char) (v v' : α) (t : List (List Char × α)) :
    upsertD k v ((k, v') :: t) = (k, v) :: t := by
  simp [upsertD]

theorem upsertD_cons_ne {k' k : List Char} (h : k' ≠ k) (v v' : α)
    (t : List (List Char × α)) :
    upsertD k v ((k', v') :: t) = (k', v') :: upsertD k v t := by
  simp [upsertD, h]

theorem mem_keysOf_upsertD {a k : List Char} (v : α) (d : List (List Char × α)) :
    a ∈ keysOf (upsertD k v d) ↔ a = k ∨ a ∈ keysOf d := by
  induction d with
  | nil => simp [upsertD, keysOf]
  | cons p t ih =>
    obtain ⟨k', v'⟩ := p
    by_cases hk : k' = k
    · subst hk
      rw [upsertD_cons_self, keysOf_cons, keysOf_cons]
      simp [List.mem_cons]
    · rw [upsertD_cons_ne hk, keysOf_cons, keysOf_cons]
      simp only [List.mem_cons, ih]
      tauto

theorem nodup_keysOf_upsertD {k : List Char} (v : α) {d : List (List Char × α)}
    (h : (keysOf d).Nodup) : (keysOf (upsertD k v d)).Nodup := by
  induction d with
  | nil => simp [upsertD, keysOf]
  | cons p t ih =>
    obtain ⟨k', v'⟩ := p
    rw [keysOf_cons, List.nodup_cons] at h
    by_cases hk : k' = k
    · subst hk
      rw [upsertD_cons_self, keysOf_cons, List.nodup_cons]
      exact h
    · have ht := ih h.2
      rw [upsertD_cons_ne hk, keysOf_cons, List.nodup_cons]
      refine ⟨?_, ht⟩
      intro hmem
      rcases (mem_keysOf_upsertD v t).mp hmem with h1 | h1
      · exact hk h1
      · exact h.1 h1

/-! ## Lemmas: tag prefixes and dispatch -/

theorem isPrefixOf_false_of_incompat {p q l : List Char} (hi : incompat p q = true)
    (hp : p.isPrefixOf l = true) : q.isPrefixOf l = false := by
  induction p generalizing q l with
  | nil => simp [incompat] at hi
  | cons a as ih =>
    cases q with
    | nil => simp [incompat] at hi
    | cons b bs =>
      cases l with
      | nil => simp [List.isPrefixOf] at hp
      | cons c cs =>
        simp only [List.isPrefixOf, Bool.and_eq_true, beq_iff_eq] at hp
        simp only [incompat, Bool.or_eq_true, bne_iff_ne, ne_eq] at hi
        simp only [List.isPrefixOf, Bool.and_eq_true, beq_iff_eq,
          Bool.and_eq_false_iff]
        rcases hi with hab | hrec
        · left
          simp only [beq_eq_false_iff_ne, ne_eq]
          intro hbc
          exact hab (hp.1.trans hbc.symm)
        · right
          exact ih hrec hp.2

theorem lstartsWith_incompat {l : List Char} (t1 t2 : String)
    (hp : lstartsWith t1 l = true) (hi : incompat t1.data t2.data = true) :
    lstartsWith t2 l = false :=
  isPrefixOf_false_of_incompat hi hp

theorem lstartsWith_trans {l : List Char} {t1 t2 : String}
    (h : lstartsWith t2 l = true) (h12 : t1.data.isPrefixOf t2.data = true) :
    lstartsWith t1 l = true := by
  rw [lstartsWith, List.isPrefixOf_iff_prefix] at h ⊢
  rw [List.isPrefixOf_iff_prefix] at h12
  exact h12.trans h

theorem lstartsWith_hash_shape {line : List Char}
    (h : lstartsWith "#" line = true) :
    line.isEmpty = false ∧ line ≠ ['\x7b'] ∧ line ≠ ['\x7d'] := by
  cases line with
  | nil => exact absurd h (by decide)
  | cons c cs =>
    have hc : c = '#' := by
      simp only [lstartsWith, List.isPrefixOf, Bool.and_eq_true, beq_iff_eq] at h
      exact h.1.symm
    subst hc
    refine ⟨rfl, ?_, ?_⟩ <;> intro hx <;>
      exact absurd (List.head_eq_of_cons_eq hx) (by decide)

theorem processLine_eq_processTag (n : Nat) (raw : List Char) (st : ScanState)
    (h : lstartsWith "#" (pyStrip raw) = true) :
    processLine n raw st = processTag n (pyStrip raw) st := by
  obtain ⟨h1, h2, h3⟩ := lstartsWith_hash_shape h
  unfold processLine
  rw [if_neg (by simp [h1]), if_neg h2, if_neg h3, if_neg (by simp [h])]

theorem findKind_cons_pos {t : String} {k : RecordKind} {line : List Char}
    (rest : List (String × RecordKind)) (h : lstartsWith t line = true) :
    findKind ((t, k) :: rest) line = k := by
  simp [findKind, h]

theorem findKind_cons_neg {t : String} {k : RecordKind} {line : List Char}
    (rest : List (String × RecordKind)) (h : lstartsWith t line = false) :
    findKind ((t, k) :: rest) line = findKind rest line := by
  simp [findKind, h]

theorem findKind_mem {table : List (String × RecordKind)} {line : List Char}
    {k : RecordKind} (h : findKind table line = k) (hk : k ≠ RecordKind.unknown) :
    ∃ p ∈ table, p.2 = k ∧ lstartsWith p.1 line = true := by
  induction table with
  | nil => exact absurd h.symm hk
  | cons p rest ih =>
    obtain ⟨t, k'⟩ := p
    by_cases hc : lstartsWith t line = true
    · rw [findKind_cons_pos rest hc] at h
      exact ⟨(t, k'), List.mem_cons_self _ _, h, hc⟩
    · rw [findKind_cons_neg rest (Bool.eq_false_iff.mpr hc)] at h
      obtain ⟨q, hq, hq2, hq3⟩ := ih h
      exact ⟨q, List.mem_cons_of_mem _ hq, hq2, hq3⟩

theorem recordKind_hash {line : List Char} {k : RecordKind}
    (h : recordKind line = k) (hk : k ≠ RecordKind.unknown) :
    lstartsWith "#" line = true := by
  obtain ⟨p, hp, -, hp2⟩ := findKind_mem h hk
  have hh : ∀ q ∈ tagTable, ("#".data.isPrefixOf q.1.data) = true := by decide
  exact lstartsWith_trans hp2 (hh p hp)

theorem recordKind_of_not_hash {line : List Char}
    (h : lstartsWith "#" line = false) : recordKind line = RecordKind.unknown := by
  by_cases hk : recordKind line = RecordKind.unknown
  · exact hk
  · exact absurd (recordKind_hash rfl hk) (by simp [h])

theorem lstartsWith_of_recordKind {line : List Char} {t : String}
    {k : RecordKind} (h : recordKind line = k)
    (huniq : ∀ p ∈ tagTable, p.2 = k → p.1 = t) (hk : k ≠ RecordKind.unknown) :
    lstartsWith t line = true := by
  obtain ⟨p, hp, hp1, hp2⟩ := findKind_mem h hk
  rw [huniq p hp hp1] at hp2
  exact hp2

theorem findKind_pre (pre post : List (String × RecordKind)) (t : String)
    (k : RecordKind) (line : List Char) (h : lstartsWith t line = true)
    (hpre : ∀ p ∈ pre, incompat t.data p.1.data = true) :
    findKind (pre ++ (t, k) :: post) line = k := by
  induction pre with
  | nil => exact findKind_cons_pos _ h
  | cons q qs ih =>
    obtain ⟨tq, kq⟩ := q
    rw [List.cons_append,
      findKind_cons_neg _
        (lstartsWith_incompat t tq h (hpre (tq, kq) (List.mem_cons_self _ _)))]
    exact ih fun p hp => hpre p (List.mem_cons_of_mem _ hp)

theorem recordKind_program {line : List Char}
    (h : lstartsWith "#PROGRAM" line = true) :
    recordKind line = RecordKind.program := by
  have e : tagTable =
      tagTable.take 3 ++ ("#PROGRAM", RecordKind.program) :: tagTable.drop 4 := rfl
  rw [recordKind, e]
  exact findKind_pre _ _ _ _ _ h (by decide)

theorem recordKind_fnamn {line : List Char}
    (h : lstartsWith "#FNAMN" line = true) :
    recordKind line = RecordKind.fnamn := by
  have e : tagTable =
      tagTable.take 10 ++ ("#FNAMN", RecordKind.fnamn) :: tagTable.drop 11 := rfl
  rw [recordKind, e]
  exact findKind_pre _ _ _ _ _ h (by decide)

theorem recordKind_rar {line : List Char}
    (h : lstartsWith "#RAR" line = true) :
    recordKind line = RecordKind.rar := by
  have e : tagTable =
      tagTable.take 12 ++ ("#RAR", RecordKind.rar) :: tagTable.drop 13 := rfl
  rw [recordKind, e]
  exact findKind_pre _ _ _ _ _ h (by decide)

theorem recordKind_ktyp {line : List Char}
    (h : lstartsWith "#KTYP" line = true) :
    recordKind line = RecordKind.ktyp := by
  have e : tagTable =
      tagTable.take 14 ++ ("#KTYP", RecordKind.ktyp) :: tagTable.drop 15 := rfl
  rw [recordKind, e]
  exact findKind_pre _ _ _ _ _ h (by decide)

theorem recordKind_trans {line : List Char}
    (h : lstartsWith "#TRANS" line = true) :
    recordKind line = RecordKind.trans := by
  have e : tagTable =
      tagTable.take 22 ++ ("#TRANS", RecordKind.trans) :: tagTable.drop 23 := rfl
  rw [recordKind, e]
  exact findKind_pre _ _ _ _ _ h (by decide)

theorem lstartsWith_of_ktyp {line : List Char}
    (h : recordKind line = RecordKind.ktyp) : lstartsWith "#KTYP" line = true :=
  lstartsWith_of_recordKind h (by decide) (by decide)

theorem lstartsWith_of_sru {line : List Char}
    (h : recordKind line = RecordKind.sru) : lstartsWith "#SRU" line = true :=
  lstartsWith_of_recordKind h (by decide) (by decide)

theorem lstartsWith_of_konto {line : List Char}
    (h : recordKind line = RecordKind.konto) : lstartsWith "#KONTO" line = true :=
  lstartsWith_of_recordKind h (by decide) (by decide)

/-! ## Lemmas: handler effects on the deferred buffers and accounts -/

theorem handleAdress_fields (line : List Char) (st : ScanState) :
    (handleAdress line st).ktyp_records = st.ktyp_records ∧
    (handleAdress line st).sru_records = st.sru_records ∧
    (handleAdress line st).sie.accounts = st.sie.accounts ∧
    (handleAdress line st).sie.entries = st.sie.entries ∧
    (handleAdress line st).sie.company_name = st.sie.company_name ∧
    (handleAdress line st).sie.period_start = st.sie.period_start ∧
    (handleAdress line st).sie.period_end = st.sie.period_end ∧
    (handleAdress line st).in_voucher_block = st.in_voucher_block ∧
    (handleAdress line st).current_voucher = st.current_voucher := by
  unfold handleAdress
  simp

theorem handleDim_fields (line : List Char) (st : ScanState) :
    (handleDim line st).ktyp_records = st.ktyp_records ∧
    (handleDim line st).sru_records = st.sru_records ∧
    (handleDim line st).sie.accounts = st.sie.accounts ∧
    (handleDim line st).sie.entries = st.sie.entries ∧
    (handleDim line st).sie.company_name = st.sie.company_name ∧
    (handleDim line st).sie.period_start = st.sie.period_start ∧
    (handleDim line st).sie.period_end = st.sie.period_end ∧
    (handleDim line st).in_voucher_block = st.in_voucher_block ∧
    (handleDim line st).current_voucher = st.current_voucher := by
  unfold handleDim
  dsimp only
  split_ifs <;> simp

theorem handleObjekt_fields (line : List Char) (st : ScanState) :
    (handleObjekt line st).ktyp_records = st.ktyp_records ∧
    (handleObjekt line st).sru_records = st.sru_records ∧
    (handleObjekt line st).sie.accounts = st.sie.accounts ∧
    (handleObjekt line st).sie.entries = st.sie.entries ∧
    (handleObjekt line st).sie.company_name = st.sie.company_name ∧
    (handleObjekt line st).sie.period_start = st.sie.period_start ∧
    (handleObjekt line st).sie.period_end = st.sie.period_end ∧
    (handleObjekt line st).in_voucher_block = st.in_voucher_block ∧
    (handleObjekt line st).current_voucher = st.current_voucher := by
  unfold handleObjekt
  dsimp only
  split_ifs <;> simp

theorem handleVer_fields (line : List Char) (st : ScanState) :
    (handleVer line st).ktyp_records = st.ktyp_records ∧
    (handleVer line st).sru_records = st.sru_records ∧
    (handleVer line st).sie.accounts = st.sie.accounts ∧
    (handleVer line st).sie.entries = st.sie.entries ∧
    (handleVer line st).sie.company_name = st.sie.company_name ∧
    (handleVer line st).sie.period_start = st.sie.period_start ∧
    (handleVer line st).sie.period_end = st.sie.period_end ∧
    (handleVer line st).in_voucher_block = st.in_voucher_block := by
  unfold handleVer
  dsimp only
  split_ifs <;> simp

theorem handleKonto_fields (basType : List Char → AccountType) (line : List Char)
    (st : ScanState) :
    (handleKonto basType line st).ktyp_records = st.ktyp_records ∧
    (handleKonto basType line st).sru_records = st.sru_records ∧
    (handleKonto basType line st).sie.entries = st.sie.entries ∧
    (handleKonto basType line st).sie.company_name = st.sie.company_name ∧
    (handleKonto basType line st).sie.period_start = st.sie.period_start ∧
    (handleKonto basType line st).sie.period_end = st.sie.period_end ∧
    (handleKonto basType line st).in_voucher_block = st.in_voucher_block ∧
    (handleKonto basType line st).current_voucher = st.current_voucher := by
  unfold handleKonto
  dsimp only
  split_ifs <;> simp

theorem handleKtyp_fields (line : List Char) (st : ScanState) :
    (handleKtyp line st).sru_records = st.sru_records ∧
    (handleKtyp line st).sie.accounts = st.sie.accounts ∧
    (handleKtyp line st).sie.entries = st.sie.entries ∧
    (handleKtyp line st).sie.company_name = st.sie.company_name ∧
    (handleKtyp line st).sie.period_start = st.sie.period_start ∧
    (handleKtyp line st).sie.period_end = st.sie.period_end ∧
    (handleKtyp line st).in_voucher_block = st.in_voucher_block ∧
    (handleKtyp line st).current_voucher = st.current_voucher := by
  unfold handleKtyp
  dsimp only
  split_ifs <;> simp

theorem handleSru_fields (line : List Char) (st : ScanState) :
    (handleSru line st).ktyp_records = st.ktyp_records ∧
    (handleSru line st).sie.accounts = st.sie.accounts ∧
    (handleSru line st).sie.entries = st.sie.entries ∧
    (handleSru line st).sie.company_name = st.sie.company_name ∧
    (handleSru line st).sie.period_start = st.sie.period_start ∧
    (handleSru line st).sie.period_end = st.sie.period_end ∧
    (handleSru line st).in_voucher_block = st.in_voucher_block ∧
    (handleSru line st).current_voucher = st.current_voucher := by
  unfold handleSru
  dsimp only
  split_ifs <;> simp

theorem handleOrgnr_ok_fields {n : Nat} {line : List Char} {st st' : ScanState}
    (h : handleOrgnr n line st = .ok st') :
    st'.ktyp_records = st.ktyp_records ∧
    st'.sru_records = st.sru_records ∧
    st'.sie.accounts = st.sie.accounts ∧
    st'.sie.entries = st.sie.entries ∧
    st'.sie.company_name = st.sie.company_name ∧
    st'.sie.period_start = st.sie.period_start ∧
    st'.sie.period_end = st.sie.period_end ∧
    st'.in_voucher_block = st.in_voucher_block ∧
    st'.current_voucher = st.current_voucher := by
  unfold handleOrgnr at h
  dsimp only at h
  repeat' split at h
  all_goals
    first
      | exact Except.noConfusion h
      | (injection h with h2; subst h2; simp)

theorem handleRar_ok_fields {n : Nat} {line : List Char} {st st' : ScanState}
    (h : handleRar n line st = .ok st') :
    st'.ktyp_records = st.ktyp_records ∧
    st'.sru_records = st.sru_records ∧
    st'.sie.accounts = st.sie.accounts ∧
    st'.sie.entries = st.sie.entries ∧
    st'.sie.company_name = st.sie.company_name ∧
    st'.in_voucher_block = st.in_voucher_block ∧
    st'.current_voucher = st.current_voucher := by
  unfold handleRar at h
  dsimp only at h
  repeat' split at h
  all_goals
    first
      | exact Except.noConfusion h
      | (injection h with h2; subst h2; simp)

theorem handleIB_ok_fields {n : Nat} {line : List Char} {st st' : ScanState}
    (h : handleIB n line st = .ok st') :
    st'.ktyp_records = st.ktyp_records ∧
    st'.sru_records = st.sru_records ∧
    st'.sie.accounts = st.sie.accounts ∧
    st'.sie.entries = st.sie.entries ∧
    st'.sie.company_name = st.sie.company_name ∧
    st'.sie.period_start = st.sie.period_start ∧
    st'.sie.period_end = st.sie.period_end ∧
    st'.in_voucher_block = st.in_voucher_block ∧
    st'.current_voucher = st.current_voucher := by
  unfold handleIB at h
  dsimp only at h
  repeat' split at h
  all_goals
    first
      | exact Except.noConfusion h
      | (injection h with h2; subst h2; simp)

theorem handleUB_ok_fields {n : Nat} {line : List Char} {st st' : ScanState}
    (h : handleUB n line st = .ok st') :
    st'.ktyp_records = st.ktyp_records ∧
    st'.sru_records = st.sru_records ∧
    st'.sie.accounts = st.sie.accounts ∧
    st'.sie.entries = st.sie.entries ∧
    st'.sie.company_name = st.sie.company_name ∧
    st'.sie.period_start = st.sie.period_start ∧
    st'.sie.period_end = st.sie.period_end ∧
    st'.in_voucher_block = st.in_voucher_block ∧
    st'.current_voucher = st.current_voucher := by
  unfold handleUB at h
  dsimp only at h
  repeat' split at h
  all_goals
    first
      | exact Except.noConfusion h
      | (injection h with h2; subst h2; simp)

theorem handleRes_ok_fields {n : Nat} {line : List Char} {st st' : ScanState}
    (h : handleRes n line st = .ok st') :
    st'.ktyp_records = st.ktyp_records ∧
    st'.sru_records = st.sru_records ∧
    st'.sie.accounts = st.sie.accounts ∧
    st'.sie.entries = st.sie.entries ∧
    st'.sie.company_name = st.sie.company_name ∧
    st'.sie.period_start = st.sie.period_start ∧
    st'.sie.period_end = st.sie.period_end ∧
    st'.in_voucher_block = st.in_voucher_block ∧
    st'.current_voucher = st.current_voucher := by
  unfold handleRes at h
  dsimp only at h
  repeat' split at h
  all_goals
    first
      | exact Except.noConfusion h
      | (injection h with h2; subst h2; simp)

theorem handleTrans_ok_fields {n : Nat} {line : List Char} {st st' : ScanState}
    (h : handleTrans n line st = .ok st') :
    st'.ktyp_records = st.ktyp_records ∧
    st'.sru_records = st.sru_records ∧
    st'.sie.accounts = st.sie.accounts ∧
    st'.sie.company_name = st.sie.company_name ∧
    st'.sie.period_start = st.sie.period_start ∧
    st'.sie.period_end = st.sie.period_end ∧
    st'.in_voucher_block = st.in_voucher_block ∧
    st'.current_voucher = st.current_voucher := by
  unfold handleTrans at h
  dsimp only at h
  repeat' split at h
  all_goals
    first
      | exact Except.noConfusion h
      | (injection h with h2; subst h2; simp)

/-! ## Lemmas: one scan step tracks the buffers and the accounts -/

theorem processLine_ok_buffers {n : Nat} {raw : List Char} {st st' : ScanState}
    (h : processLine n raw st = .ok st') :
    st'.ktyp_records = ktypRecStep st.ktyp_records raw ∧
    st'.sru_records = sruRecStep st.sru_records raw ∧
    st'.sie.accounts = kontoRecStep st.sie.accounts raw := by
  by_cases hh : lstartsWith "#" (pyStrip raw) = true
  · rw [processLine_eq_processTag _ _ _ hh] at h
    unfold processTag at h
    cases hrk : recordKind (pyStrip raw) <;> rw [hrk] at h
    · injection h with h2
      subst h2
      simp [ktypRecStep, sruRecStep, kontoRecStep, hrk]
    · injection h with h2
      subst h2
      simp [ktypRecStep, sruRecStep, kontoRecStep, hrk]
    · injection h with h2
      subst h2
      simp [ktypRecStep, sruRecStep, kontoRecStep, hrk]
    · injection h with h2
      subst h2
      simp [ktypRecStep, sruRecStep, kontoRecStep, hrk]
    · injection h with h2
      subst h2
      simp [ktypRecStep, sruRecStep, kontoRecStep, hrk]
    · injection h with h2
      subst h2
      simp [ktypRecStep, sruRecStep, kontoRecStep, hrk]
    · injection h with h2
      subst h2
      simp [ktypRecStep, sruRecStep, kontoRecStep, hrk]
    · injection h with h2
      subst h2
      simp [ktypRecStep, sruRecStep, kontoRecStep, hrk]
    · injection h with h2
      subst h2
      simp [ktypRecStep, sruRecStep, kontoRecStep, hrk]
    · injection h with h2
      subst h2
      simp [ktypRecStep, sruRecStep, kontoRecStep, hrk, handleAdress_fields]
    · injection h with h2
      subst h2
      simp [ktypRecStep, sruRecStep, kontoRecStep, hrk]
    · simp [ktypRecStep, sruRecStep, kontoRecStep, hrk,
        handleOrgnr_ok_fields h]
    · simp [ktypRecStep, sruRecStep, kontoRecStep, hrk,
        handleRar_ok_fields h]
    · injection h with h2
      subst h2
      refine ⟨?_, ?_, ?_⟩
      · rw [(handleKonto_fields get_bas_account_type (pyStrip raw) st).1]
        simp [ktypRecStep, hrk]
      · rw [(handleKonto_fields get_bas_account_type (pyStrip raw) st).2.1]
        simp [sruRecStep, hrk]
      · unfold handleKonto kontoRecStep
        try dsimp only
        by_cases hp : 3 ≤ (pySplitMax 2 (pyStrip raw)).length
        · rw [if_pos hp, if_pos ⟨hrk, hp⟩]
        · rw [if_neg hp, if_neg (fun hc => hp hc.2)]
    · injection h with h2
      subst h2
      refine ⟨?_, ?_, ?_⟩
      · unfold handleKtyp ktypRecStep
        try dsimp only
        by_cases hp : 3 ≤ (pySplitWs (pyStrip raw)).length
        · rw [if_pos hp, if_pos ⟨hrk, hp⟩]
        · rw [if_neg hp, if_neg (fun hc => hp hc.2)]
      · rw [(handleKtyp_fields (pyStrip raw) st).1]
        simp [sruRecStep, hrk]
      · rw [(handleKtyp_fields (pyStrip raw) st).2.1]
        simp [kontoRecStep, hrk]
    · injection h with h2
      subst h2
      refine ⟨?_, ?_, ?_⟩
      · rw [(handleSru_fields (pyStrip raw) st).1]
        simp [ktypRecStep, hrk]
      · unfold handleSru sruRecStep
        try dsimp only
        by_cases hp : 3 ≤ (pySplitWs (pyStrip raw)).length
        · rw [if_pos hp, if_pos ⟨hrk, hp⟩]
        · rw [if_neg hp, if_neg (fun hc => hp hc.2)]
      · rw [(handleSru_fields (pyStrip raw) st).2.1]
        simp [kontoRecStep, hrk]
    · injection h with h2
      subst h2
      simp [ktypRecStep, sruRecStep, kontoRecStep, hrk, handleDim_fields]
    · injection h with h2
      subst h2
      simp [ktypRecStep, sruRecStep, kontoRecStep, hrk, handleObjekt_fields]
    · simp [ktypRecStep, sruRecStep, kontoRecStep, hrk,
        handleIB_ok_fields h]
    · simp [ktypRecStep, sruRecStep, kontoRecStep, hrk,
        handleUB_ok_fields h]
    · simp [ktypRecStep, sruRecStep, kontoRecStep, hrk,
        handleRes_ok_fields h]
    · injection h with h2
      subst h2
      simp [ktypRecStep, sruRecStep, kontoRecStep, hrk, handleVer_fields]
    · simp [ktypRecStep, sruRecStep, kontoRecStep, hrk,
        handleTrans_ok_fields h]
    · injection h with h2
      subst h2
      simp [ktypRecStep, sruRecStep, kontoRecStep, hrk]
  · have hh2 : lstartsWith "#" (pyStrip raw) = false := by
      cases hc : lstartsWith "#" (pyStrip raw)
      · rfl
      · exact absurd hc hh
    have hrk := recordKind_of_not_hash hh2
    unfold processLine at h
    dsimp only at h
    split_ifs at h with g1 g2 g3 g4
    · injection h with h2
      subst h2
      simp [ktypRecStep, sruRecStep, kontoRecStep, hrk]
    · injection h with h2
      subst h2
      simp [ktypRecStep, sruRecStep, kontoRecStep, hrk]
    · injection h with h2
      subst h2
      simp [ktypRecStep, sruRecStep, kontoRecStep, hrk]
    · injection h with h2
      subst h2
      simp [ktypRecStep, sruRecStep, kontoRecStep, hrk]
    · exact absurd (by simpa using g4) hh

theorem lookupD_ktypRecStep (id : List Char) (d : List (List Char × List Char))
    (raw : List Char) :
    lookupD id (ktypRecStep d raw) = ktypCodeStep id (lookupD id d) raw := by
  unfold ktypRecStep ktypCodeStep
  dsimp only
  by_cases hc : recordKind (pyStrip raw) = RecordKind.ktyp ∧
      3 ≤ (pySplitWs (pyStrip raw)).length
  · rw [if_pos hc]
    by_cases hid : (pySplitWs (pyStrip raw)).getD 1 [] = id
    · rw [if_pos ⟨hc.1, hc.2, hid⟩, hid, lookupD_upsertD_self]
    · rw [if_neg (fun hx => hid hx.2.2)]
      exact lookupD_upsertD_ne (fun hx => hid hx.symm) _ _
  · rw [if_neg hc, if_neg (fun hx => hc ⟨hx.1, hx.2.1⟩)]

theorem lookupD_sruRecStep (id : List Char) (d : List (List Char × List Char))
    (raw : List Char) :
    lookupD id (sruRecStep d raw) = sruCodeStep id (lookupD id d) raw := by
  unfold sruRecStep sruCodeStep
  dsimp only
  by_cases hc : recordKind (pyStrip raw) = RecordKind.sru ∧
      3 ≤ (pySplitWs (pyStrip raw)).length
  · rw [if_pos hc]
    by_cases hid : (pySplitWs (pyStrip raw)).getD 1 [] = id
    · rw [if_pos ⟨hc.1, hc.2, hid⟩, hid, lookupD_upsertD_self]
    · rw [if_neg (fun hx => hid hx.2.2)]
      exact lookupD_upsertD_ne (fun hx => hid hx.symm) _ _
  · rw [if_neg hc, if_neg (fun hx => hc ⟨hx.1, hx.2.1⟩)]

theorem lookupD_kontoRecStep (id : List Char) (d : List (List Char × SieAccount))
    (raw : List Char) :
    lookupD id (kontoRecStep d raw) = kontoAccStep id (lookupD id d) raw := by
  unfold kontoRecStep kontoAccStep
  dsimp only
  by_cases hc : recordKind (pyStrip raw) = RecordKind.konto ∧
      3 ≤ (pySplitMax 2 (pyStrip raw)).length
  · rw [if_pos hc]
    by_cases hid : pyStrip ((pySplitMax 2 (pyStrip raw)).getD 1 []) = id
    · rw [if_pos ⟨hc.1, hc.2, hid⟩, hid, lookupD_upsertD_self]
    · rw [if_neg (fun hx => hid hx.2.2)]
      exact lookupD_upsertD_ne (fun hx => hid hx.symm) _ _
  · rw [if_neg hc, if_neg (fun hx => hc ⟨hx.1, hx.2.1⟩)]

theorem nodup_ktypRecStep {d : List (List Char × List Char)} (raw : List Char)
    (h : (keysOf d).Nodup) : (keysOf (ktypRecStep d raw)).Nodup := by
  unfold ktypRecStep
  dsimp only
  split_ifs
  · exact nodup_keysOf_upsertD _ h
  · exact h

theorem nodup_sruRecStep {d : List (List Char × List Char)} (raw : List Char)
    (h : (keysOf d).Nodup) : (keysOf (sruRecStep d raw)).Nodup := by
  unfold sruRecStep
  dsimp only
  split_ifs
  · exact nodup_keysOf_upsertD _ h
  · exact h

/-! ## Lemmas: the whole forward scan -/

theorem scanLines_ok_buffers :
    ∀ (ls : List (List Char)) (n : Nat) (st st' : ScanState),
    scanLines n ls st = .ok st' →
    st'.ktyp_records = ls.foldl ktypRecStep st.ktyp_records ∧
    st'.sru_records = ls.foldl sruRecStep st.sru_records ∧
    st'.sie.accounts = ls.foldl kontoRecStep st.sie.accounts := by
  intro ls
  induction ls with
  | nil =>
    intro n st st' h
    unfold scanLines at h
    injection h with h2
    subst h2
    simp
  | cons l rest ih =>
    intro n st st' h
    unfold scanLines at h
    cases hstep : processLine n l st with
    | error e =>
      rw [hstep] at h
      exact Except.noConfusion h
    | ok st1 =>
      rw [hstep] at h
      obtain ⟨k1, s1, a1⟩ := processLine_ok_buffers hstep
      obtain ⟨k2, s2, a2⟩ := ih (n + 1) st1 st' h
      refine ⟨?_, ?_, ?_⟩
      · rw [List.foldl_cons, ← k1]
        exact k2
      · rw [List.foldl_cons, ← s1]
        exact s2
      · rw [List.foldl_cons, ← a1]
        exact a2

theorem foldl_ktypRecStep_lookup (id : List Char) :
    ∀ (ls : List (List Char)) (d : List (List Char × List Char)),
    lookupD id (ls.foldl ktypRecStep d) = ls.foldl (ktypCodeStep id) (lookupD id d)
  | [], d => rfl
  | l :: rest, d => by
    rw [List.foldl_cons, List.foldl_cons, foldl_ktypRecStep_lookup id rest,
      lookupD_ktypRecStep]

theorem foldl_sruRecStep_lookup (id : List Char) :
    ∀ (ls : List (List Char)) (d : List (List Char × List Char)),
    lookupD id (ls.foldl sruRecStep d) = ls.foldl (sruCodeStep id) (lookupD id d)
  | [], d => rfl
  | l :: rest, d => by
    rw [List.foldl_cons, List.foldl_cons, foldl_sruRecStep_lookup id rest,
      lookupD_sruRecStep]

theorem foldl_kontoRecStep_lookup (id : List Char) :
    ∀ (ls : List (List Char)) (d : List (List Char × SieAccount)),
    lookupD id (ls.foldl kontoRecStep d) = ls.foldl (kontoAccStep id) (lookupD id d)
  | [], d => rfl
  | l :: rest, d => by
    rw [List.foldl_cons, List.foldl_cons, foldl_kontoRecStep_lookup id rest,
      lookupD_kontoRecStep]

theorem foldl_ktypRecStep_nodup :
    ∀ (ls : List (List Char)) {d : List (List Char × List Char)},
    (keysOf d).Nodup → (keysOf (ls.foldl ktypRecStep d)).Nodup
  | [], _, h => h
  | l :: rest, d, h => by
    rw [List.foldl_cons]
    exact foldl_ktypRecStep_nodup rest (nodup_ktypRecStep l h)

theorem foldl_sruRecStep_nodup :
    ∀ (ls : List (List Char)) {d : List (List Char × List Char)},
    (keysOf d).Nodup → (keysOf (ls.foldl sruRecStep d)).Nodup
  | [], _, h => h
  | l :: rest, d, h => by
    rw [List.foldl_cons]
    exact foldl_sruRecStep_nodup rest (nodup_sruRecStep l h)

/-- After a successful scan from the initial state: the `#KTYP` buffer holds
for each id the code of the id's last override record, the `#SRU` buffer the
code of the id's last tax-code record, the accounts dictionary the id's last
declaration; both buffers have unique keys. -/
theorem scan_initial_summary {lines : List (List Char)} {st : ScanState}
    (h : scanLines 1 lines initialState = .ok st) (id : List Char) :
    lookupD id st.ktyp_records = lastKtypLines lines id ∧
    lookupD id st.sru_records = lastSruLines lines id ∧
    lookupD id st.sie.accounts = lastKontoLines lines id ∧
    (keysOf st.ktyp_records).Nodup ∧ (keysOf st.sru_records).Nodup := by
  obtain ⟨k, s, a⟩ := scanLines_ok_buffers lines 1 initialState st h
  refine ⟨?_, ?_, ?_, ?_, ?_⟩
  · rw [k, foldl_ktypRecStep_lookup]
    rfl
  · rw [s, foldl_sruRecStep_lookup]
    rfl
  · rw [a, foldl_kontoRecStep_lookup]
    rfl
  · rw [k]
    exact foldl_ktypRecStep_nodup lines (by simp [initialState, keysOf])
  · rw [s]
    exact foldl_sruRecStep_nodup lines (by simp [initialState, keysOf])

/-! ## Lemmas: the deferred resolver passes -/

theorem lookupD_eq_none_of_not_mem {id : List Char} {d : List (List Char × α)}
    (h : id ∉ keysOf d) : lookupD id d = none := by
  induction d with
  | nil => rfl
  | cons p t ih =>
    obtain ⟨k, v⟩ := p
    rw [keysOf_cons, List.mem_cons] at h
    push_neg at h
    unfold lookupD
    rw [if_neg (fun hx => h.1 hx.symm)]
    exact ih h.2

theorem apply_ktyp_lookup_none {id : List Char} :
    ∀ (pairs : List (List Char × List Char)) (accs accs' : List (List Char × SieAccount)),
    lookupD id pairs = none →
    apply_ktyp_records accs pairs = .ok accs' →
    lookupD id accs' = lookupD id accs := by
  intro pairs
  induction pairs with
  | nil =>
    intro accs accs' hn h
    injection h with h2
    subst h2
    rfl
  | cons p rest ih =>
    intro accs accs' hn h
    obtain ⟨k, c⟩ := p
    unfold lookupD at hn
    by_cases hk : k = id
    · rw [if_pos hk] at hn
      exact Option.noConfusion hn
    · rw [if_neg hk] at hn
      unfold apply_ktyp_records at h
      cases hfc : AccountType.from_sie_code c with
      | none =>
        rw [hfc] at h
        exact Except.noConfusion h
      | some t =>
        rw [hfc] at h
        try dsimp only at h
        split_ifs at h with hm
        · rw [ih _ _ hn h]
          exact lookupD_updateD_ne (fun hx => hk hx.symm) _ _
        · rw [ih _ _ hn h]
          exact lookupD_append_single_ne (fun hx => hk hx.symm) _ _

theorem apply_ktyp_lookup_some {id code : List Char} {t : AccountType} :
    ∀ (pairs : List (List Char × List Char)) (accs accs' : List (List Char × SieAccount)),
    (keysOf pairs).Nodup →
    lookupD id pairs = some code →
    AccountType.from_sie_code code = some t →
    apply_ktyp_records accs pairs = .ok accs' →
    lookupD id accs' = some
      (match lookupD id accs with
       | some a => { a with type := t }
       | none =>
         { number := id, name := "Account ".data ++ id, type := t,
           sru_code := [] }) := by
  intro pairs
  induction pairs with
  | nil =>
    intro accs accs' hnd hl ht h
    exact Option.noConfusion hl
  | cons p rest ih =>
    intro accs accs' hnd hl ht h
    obtain ⟨k, c⟩ := p
    rw [keysOf_cons, List.nodup_cons] at hnd
    unfold lookupD at hl
    unfold apply_ktyp_records at h
    by_cases hk : k = id
    · rw [if_pos hk] at hl
      injection hl with hc
      subst hc
      subst hk
      rw [ht] at h
      try dsimp only at h
      have hrest : lookupD k rest = none := lookupD_eq_none_of_not_mem hnd.1
      split_ifs at h with hm
      · rw [apply_ktyp_lookup_none rest _ _ hrest h, lookupD_updateD_self]
        unfold memD at hm
        cases hacc : lookupD k accs with
        | none => rw [hacc] at hm; exact absurd hm (by simp)
        | some a => rfl
      · rw [apply_ktyp_lookup_none rest _ _ hrest h, lookupD_append]
        unfold memD at hm
        cases hacc : lookupD k accs with
        | none => simp [lookupD]
        | some a => rw [hacc] at hm; simp at hm
    · rw [if_neg hk] at hl
      cases hfc : AccountType.from_sie_code c with
      | none =>
        rw [hfc] at h
        exact Except.noConfusion h
      | some t' =>
        rw [hfc] at h
        try dsimp only at h
        split_ifs at h with hm
        · rw [ih _ _ hnd.2 hl ht h,
            lookupD_updateD_ne (fun hx => hk hx.symm)]
        · rw [ih _ _ hnd.2 hl ht h,
            lookupD_append_single_ne (fun hx => hk hx.symm)]

theorem apply_sru_lookup_none {id : List Char} :
    ∀ (pairs : List (List Char × List Char)) (accs : List (List Char × SieAccount)),
    lookupD id pairs = none →
    lookupD id (apply_sru_records accs pairs) = lookupD id accs := by
  intro pairs
  induction pairs with
  | nil => intro accs _; rfl
  | cons p rest ih =>
    intro accs hn
    obtain ⟨k, c⟩ := p
    unfold lookupD at hn
    by_cases hk : k = id
    · rw [if_pos hk] at hn
      exact Option.noConfusion hn
    · rw [if_neg hk] at hn
      unfold apply_sru_records
      split_ifs with hm
      · rw [ih _ hn]
        exact lookupD_updateD_ne (fun hx => hk hx.symm) _ _
      · exact ih _ hn

theorem apply_sru_lookup_some {id code : List Char} :
    ∀ (pairs : List (List Char × List Char)) (accs : List (List Char × SieAccount)),
    (keysOf pairs).Nodup →
    lookupD id pairs = some code →
    lookupD id (apply_sru_records accs pairs) =
      (lookupD id accs).map (fun a => { a with sru_code := code }) := by
  intro pairs
  induction pairs with
  | nil =>
    intro accs _ hl
    exact Option.noConfusion hl
  | cons p rest ih =>
    intro accs hnd hl
    obtain ⟨k, c⟩ := p
    rw [keysOf_cons, List.nodup_cons] at hnd
    unfold lookupD at hl
    unfold apply_sru_records
    by_cases hk : k = id
    · rw [if_pos hk] at hl
      injection hl with hc
      subst hc
      subst hk
      have hrest : lookupD k rest = none := lookupD_eq_none_of_not_mem hnd.1
      split_ifs with hm
      · rw [apply_sru_lookup_none rest _ hrest, lookupD_updateD_self]
      · rw [apply_sru_lookup_none rest _ hrest]
        unfold memD at hm
        cases hacc : lookupD k accs with
        | none => rfl
        | some a => rw [hacc] at hm; simp at hm
    · rw [if_neg hk] at hl
      split_ifs with hm
      · rw [ih _ hnd.2 hl, lookupD_updateD_ne (fun hx => hk hx.symm)]
      · exact ih _ hnd.2 hl

theorem apply_ktyp_error_iff :
    ∀ (pairs : List (List Char × List Char)) (accs : List (List Char × SieAccount)),
    (∃ e, apply_ktyp_records accs pairs = .error e) ↔
      ∃ p ∈ pairs, AccountType.from_sie_code p.2 = none := by
  intro pairs
  induction pairs with
  | nil =>
    intro accs
    simp [apply_ktyp_records]
  | cons p rest ih =>
    intro accs
    obtain ⟨k, c⟩ := p
    unfold apply_ktyp_records
    cases hfc : AccountType.from_sie_code c with
    | none =>
      try dsimp only
      constructor
      · intro _
        exact ⟨(k, c), List.mem_cons_self _ _, hfc⟩
      · intro _
        exact ⟨_, rfl⟩
    | some t =>
      try dsimp only
      split_ifs with hm
      · rw [ih]
        constructor
        · intro ⟨q, hq, hq2⟩
          exact ⟨q, List.mem_cons_of_mem _ hq, hq2⟩
        · intro ⟨q, hq, hq2⟩
          rcases List.mem_cons.mp hq with hq1 | hq1
          · subst hq1
            rw [hfc] at hq2
            exact absurd hq2 (by simp)
          · exact ⟨q, hq1, hq2⟩
      · rw [ih]
        constructor
        · intro ⟨q, hq, hq2⟩
          exact ⟨q, List.mem_cons_of_mem _ hq, hq2⟩
        · intro ⟨q, hq, hq2⟩
          rcases List.mem_cons.mp hq with hq1 | hq1
          · subst hq1
            rw [hfc] at hq2
            exact absurd hq2 (by simp)
          · exact ⟨q, hq1, hq2⟩

/-! ## Lemmas: which lines raise during the scan -/

theorem pySplitMax_one_contains :
    ∀ l : List Char, l.contains ' ' = true → ∃ a b, pySplitMax 1 l = [a, b] := by
  intro l
  induction l with
  | nil => intro h; simp at h
  | cons c cs ih =>
    intro h
    by_cases hc : c = ' '
    · subst hc
      exact ⟨[], cs, by simp [pySplitMax]⟩
    · have hcs : cs.contains ' ' = true := by
        rw [List.contains_cons] at h
        rcases Bool.or_eq_true_iff.mp h with hx | hx
        · exact absurd (beq_iff_eq.mp hx).symm hc
        · exact hx
      obtain ⟨a, b, hab⟩ := ih hcs
      refine ⟨c :: a, b, ?_⟩
      unfold pySplitMax
      rw [if_neg hc, hab]

theorem pySplitMax_one_not :
    ∀ l : List Char, l.contains ' ' = false → pySplitMax 1 l = [l] := by
  intro l
  induction l with
  | nil => intro _; rfl
  | cons c cs ih =>
    intro h
    have hc : ¬(c = ' ') := by
      intro hx
      subst hx
      simp [List.contains_cons] at h
    have hcs : cs.contains ' ' = false := by
      cases hx : cs.contains ' '
      · rfl
      · rw [List.contains_cons, hx] at h
        simp at h
    unfold pySplitMax
    rw [if_neg hc, ih hcs]

theorem bool_eq_false_of_ne_true {b : Bool} (h : ¬b = true) : b = false := by
  cases b
  · rfl
  · exact absurd rfl h

theorem handleOrgnr_error_iff (n : Nat) (line : List Char) (st : ScanState) :
    (∃ e, handleOrgnr n line st = .error e) ↔ line.contains ' ' = false := by
  unfold handleOrgnr
  by_cases hc : line.contains ' ' = true
  · obtain ⟨a, b, hab⟩ := pySplitMax_one_contains line hc
    rw [hab]
    constructor
    · intro ⟨e, he⟩
      exact Except.noConfusion he
    · intro hx
      rw [hc] at hx
      exact Bool.noConfusion hx
  · have hc2 := bool_eq_false_of_ne_true hc
    rw [pySplitMax_one_not line hc2]
    exact iff_of_true ⟨_, rfl⟩ hc2

theorem handleOrgnr_error_payload {n : Nat} {line : List Char}
    {st : ScanState} {e : SieParseError} (h : handleOrgnr n line st = .error e) :
    e.line_number = some n ∧ e.line_content = some line := by
  unfold handleOrgnr at h
  rcases hsp : pySplitMax 1 line with _ | ⟨a, _ | ⟨b, t⟩⟩ <;> rw [hsp] at h
  · injection h with h2
    subst h2
    exact ⟨rfl, rfl⟩
  · injection h with h2
    subst h2
    exact ⟨rfl, rfl⟩
  · exact Except.noConfusion h

theorem handleRar_error_iff (n : Nat) (line : List Char) (st : ScanState) :
    (∃ e, handleRar n line st = .error e) ↔
      (3 ≤ (pySplitSp line).length ∧
       pyIsdigit (dropLeadingMinus ((pySplitSp line).getD 1 [])) = true ∧
       pyIntParse ((pySplitSp line).getD 1 []) = none) := by
  unfold handleRar
  set p1 := (pySplitSp line).getD 1 [] with hp1
  dsimp only
  by_cases h1 : 3 ≤ (pySplitSp line).length
  · rw [if_pos h1]
    by_cases h2 : pyIsdigit (dropLeadingMinus p1) = true
    · rw [if_pos h2]
      cases hpi : pyIntParse p1 with
      | none => exact iff_of_true ⟨_, rfl⟩ ⟨h1, h2, rfl⟩
      | some z =>
        try dsimp only
        constructor
        · intro ⟨e, he⟩
          split_ifs at he <;> exact Except.noConfusion he
        · intro ⟨_, _, hn⟩
          exact Option.noConfusion hn
    · rw [if_neg h2]
      try dsimp only
      rw [if_pos rfl]
      constructor
      · intro ⟨e, he⟩
        exact Except.noConfusion he
      · intro ⟨_, hx, _⟩
        exact absurd hx h2
  · rw [if_neg h1]
    constructor
    · intro ⟨e, he⟩
      exact Except.noConfusion he
    · intro ⟨hx, _, _⟩
      exact absurd hx h1

theorem handleRar_error_payload {n : Nat} {line : List Char}
    {st : ScanState} {e : SieParseError} (h : handleRar n line st = .error e) :
    e.line_number = some n ∧ e.line_content = some line := by
  unfold handleRar at h
  dsimp only at h
  by_cases h1 : 3 ≤ (pySplitSp line).length
  · rw [if_pos h1] at h
    by_cases h2 : pyIsdigit (dropLeadingMinus ((pySplitSp line).getD 1 [])) = true
    · rw [if_pos h2] at h
      cases hpi : pyIntParse ((pySplitSp line).getD 1 []) <;> rw [hpi] at h
      · injection h with h2x
        subst h2x
        exact ⟨rfl, rfl⟩
      · dsimp only at h
        split_ifs at h <;> exact Except.noConfusion h
    · rw [if_neg h2] at h
      try dsimp only at h
      rw [if_pos rfl] at h
      exact Except.noConfusion h
  · rw [if_neg h1] at h
    exact Except.noConfusion h

theorem parseBalance_error_iff (n : Nat) (line : List Char) :
    (∃ e, parseBalance n line = .error e) ↔
      (4 ≤ (pySplitWs line).length ∧
       ((pyIntParse ((pySplitWs line).getD 1 [])).isNone = true ∨
        (pyFloatParse (replaceComma ((pySplitWs line).getD 3 []))).isNone = true ∨
        (4 < (pySplitWs line).length ∧
         (pyFloatParse (replaceComma ((pySplitWs line).getD 4 []))).isNone = true))) := by
  unfold parseBalance
  dsimp only
  by_cases h1 : 4 ≤ (pySplitWs line).length
  · rw [if_pos h1]
    cases hpi : pyIntParse ((pySplitWs line).getD 1 []) with
    | none => exact iff_of_true ⟨_, rfl⟩ ⟨h1, Or.inl rfl⟩
    | some p =>
      try dsimp only
      cases hpf : pyFloatParse (replaceComma ((pySplitWs line).getD 3 [])) with
      | none => exact iff_of_true ⟨_, rfl⟩ ⟨h1, Or.inr (Or.inl rfl)⟩
      | some am =>
        try dsimp only
        by_cases h4 : 4 < (pySplitWs line).length
        · rw [if_pos h4]
          cases hpq : pyFloatParse (replaceComma ((pySplitWs line).getD 4 [])) with
          | none => exact iff_of_true ⟨_, rfl⟩ ⟨h1, Or.inr (Or.inr ⟨h4, rfl⟩)⟩
          | some q =>
            constructor
            · intro ⟨e, he⟩
              exact Except.noConfusion he
            · intro ⟨_, hx⟩
              rcases hx with hx | hx | ⟨_, hx⟩
              · simp at hx
              · simp at hx
              · simp at hx
        · rw [if_neg h4]
          constructor
          · intro ⟨e, he⟩
            exact Except.noConfusion he
          · intro ⟨_, hx⟩
            rcases hx with hx | hx | ⟨hx4, _⟩
            · simp at hx
            · simp at hx
            · exact absurd hx4 h4
  · rw [if_neg h1]
    constructor
    · intro ⟨e, he⟩
      exact Except.noConfusion he
    · intro ⟨hx, _⟩
      exact absurd hx h1

theorem parseBalance_error_payload {n : Nat} {line : List Char}
    {e : SieParseError} (h : parseBalance n line = .error e) :
    e.line_number = some n ∧ e.line_content = some line := by
  unfold parseBalance at h
  dsimp only at h
  by_cases h1 : 4 ≤ (pySplitWs line).length
  · rw [if_pos h1] at h
    cases hpi : pyIntParse ((pySplitWs line).getD 1 []) <;> rw [hpi] at h
    · injection h with h2
      subst h2
      exact ⟨rfl, rfl⟩
    · dsimp only at h
      cases hpf : pyFloatParse (replaceComma ((pySplitWs line).getD 3 [])) <;>
        rw [hpf] at h
      · injection h with h2
        subst h2
        exact ⟨rfl, rfl⟩
      · dsimp only at h
        by_cases h4 : 4 < (pySplitWs line).length
        · rw [if_pos h4] at h
          cases hpq : pyFloatParse (replaceComma ((pySplitWs line).getD 4 [])) <;>
            rw [hpq] at h
          · injection h with h2
            subst h2
            exact ⟨rfl, rfl⟩
          · exact Except.noConfusion h
        · rw [if_neg h4] at h
          exact Except.noConfusion h
  · rw [if_neg h1] at h
    exact Except.noConfusion h

theorem handleTrans_error_iff (n : Nat) (line : List Char) (st : ScanState) :
    (∃ e, handleTrans n line st = .error e) ↔
      (st.in_voucher_block &&
       st.current_voucher.isSome &&
       decide (3 ≤ (pySplitMax 2 line).length) &&
       (match (pySplitWs
           (transSplitObjects (pyStrip ((pySplitMax 2 line).getD 2 []))).2).head? with
        | none => false
        | some a =>
          !a.isEmpty && decide (a ≠ "\x7b\x7d".data) &&
            (pyFloatParse (replaceComma a)).isNone)) = true := by
  unfold handleTrans
  cases hb : st.in_voucher_block <;> cases hv : st.current_voucher <;>
    try dsimp only
  · simp
  · simp
  · simp
  · by_cases hp : 3 ≤ (pySplitMax 2 line).length
    · rw [if_pos hp]
      try dsimp only
      cases hhd : (pySplitWs
          (transSplitObjects (pyStrip ((pySplitMax 2 line).getD 2 []))).2).head? with
      | none => simp
      | some a =>
        try dsimp only
        by_cases hcond : (!a.isEmpty && decide (a ≠ "\x7b\x7d".data)) = true
        · rw [if_pos hcond]
          cases hpf : pyFloatParse (replaceComma a) with
          | none =>
            refine iff_of_true ⟨_, rfl⟩ ?_
            obtain ⟨c1, c2⟩ := Bool.and_eq_true_iff.mp hcond
            simp [hp, hpf]
            exact ⟨by simpa using c1, of_decide_eq_true c2⟩
          | some v =>
            constructor
            · intro ⟨e, he⟩
              exact Except.noConfusion he
            · intro hx
              simp [hp, hpf] at hx
        · rw [if_neg hcond]
          constructor
          · intro ⟨e, he⟩
            exact Except.noConfusion he
          · intro hx
            simp [hp] at hx
            exact absurd
              (Bool.and_eq_true_iff.mpr ⟨by simpa using hx.1.1, decide_eq_true hx.1.2⟩)
              hcond
    · rw [if_neg hp]
      constructor
      · intro ⟨e, he⟩
        exact Except.noConfusion he
      · intro hx
        simp [hp] at hx

theorem handleTrans_error_payload {n : Nat} {line : List Char}
    {st : ScanState} {e : SieParseError} (h : handleTrans n line st = .error e) :
    e.line_number = some n ∧ e.line_content = some line := by
  unfold handleTrans at h
  cases hb : st.in_voucher_block <;> rw [hb] at h <;>
    cases hv : st.current_voucher <;> rw [hv] at h <;>
    try dsimp only at h
  · exact Except.noConfusion h
  · exact Except.noConfusion h
  · exact Except.noConfusion h
  · by_cases hp : 3 ≤ (pySplitMax 2 line).length
    · rw [if_pos hp] at h
      try dsimp only at h
      cases hhd : (pySplitWs
          (transSplitObjects (pyStrip ((pySplitMax 2 line).getD 2 []))).2).head? with
      | none =>
        rw [hhd] at h
        exact Except.noConfusion h
      | some a =>
        rw [hhd] at h
        try dsimp only at h
        split_ifs at h with hcond
        cases hpf : pyFloatParse (replaceComma a) <;> rw [hpf] at h
        · injection h with h2
          subst h2
          exact ⟨rfl, rfl⟩
        · exact Except.noConfusion h
    · rw [if_neg hp] at h
      exact Except.noConfusion h

theorem handleIB_error_iff (n : Nat) (line : List Char) (st : ScanState) :
    (∃ e, handleIB n line st = .error e) ↔ (∃ e, parseBalance n line = .error e) := by
  unfold handleIB
  cases hpb : parseBalance n line with
  | error e => simp
  | ok ob => cases ob <;> simp

theorem handleUB_error_iff (n : Nat) (line : List Char) (st : ScanState) :
    (∃ e, handleUB n line st = .error e) ↔ (∃ e, parseBalance n line = .error e) := by
  unfold handleUB
  cases hpb : parseBalance n line with
  | error e => simp
  | ok ob => cases ob <;> simp

theorem handleRes_error_iff (n : Nat) (line : List Char) (st : ScanState) :
    (∃ e, handleRes n line st = .error e) ↔ (∃ e, parseBalance n line = .error e) := by
  unfold handleRes
  cases hpb : parseBalance n line with
  | error e => simp
  | ok ob => cases ob <;> simp

theorem handleIB_error_payload {n : Nat} {line : List Char} {st : ScanState}
    {e : SieParseError} (h : handleIB n line st = .error e) :
    e.line_number = some n ∧ e.line_content = some line := by
  unfold handleIB at h
  cases hpb : parseBalance n line <;> rw [hpb] at h
  · injection h with h2
    subst h2
    exact parseBalance_error_payload hpb
  · rename_i ob
    cases ob <;> exact Except.noConfusion h

theorem handleUB_error_payload {n : Nat} {line : List Char} {st : ScanState}
    {e : SieParseError} (h : handleUB n line st = .error e) :
    e.line_number = some n ∧ e.line_content = some line := by
  unfold handleUB at h
  cases hpb : parseBalance n line <;> rw [hpb] at h
  · injection h with h2
    subst h2
    exact parseBalance_error_payload hpb
  · rename_i ob
    cases ob <;> exact Except.noConfusion h

theorem handleRes_error_payload {n : Nat} {line : List Char} {st : ScanState}
    {e : SieParseError} (h : handleRes n line st = .error e) :
    e.line_number = some n ∧ e.line_content = some line := by
  unfold handleRes at h
  cases hpb : parseBalance n line <;> rw [hpb] at h
  · injection h with h2
    subst h2
    exact parseBalance_error_payload hpb
  · rename_i ob
    cases ob <;> exact Except.noConfusion h

theorem processLine_error_iff (n : Nat) (raw : List Char) (st : ScanState) :
    (∃ e, processLine n raw st = .error e) ↔
      lineDecodeFails st.in_voucher_block st.current_voucher.isSome
        (pyStrip raw) = true := by
  by_cases hh : lstartsWith "#" (pyStrip raw) = true
  · rw [processLine_eq_processTag _ _ _ hh]
    unfold processTag lineDecodeFails
    cases hrk : recordKind (pyStrip raw) <;> try dsimp only
    · simp
    · simp
    · simp
    · simp
    · simp
    · simp
    · simp
    · simp
    · simp
    · simp
    · simp
    · rw [handleOrgnr_error_iff]
      simp
    · rw [handleRar_error_iff]
      simp only [Bool.and_eq_true, decide_eq_true_iff,
        Option.isNone_iff_eq_none]
      exact and_assoc.symm
    · simp
    · simp
    · simp
    · simp
    · simp
    · rw [handleIB_error_iff, parseBalance_error_iff]
      simp only [Bool.and_eq_true, Bool.or_eq_true, decide_eq_true_iff,
        Option.isNone_iff_eq_none]
      exact and_congr_right fun _ => or_assoc.symm
    · rw [handleUB_error_iff, parseBalance_error_iff]
      simp only [Bool.and_eq_true, Bool.or_eq_true, decide_eq_true_iff,
        Option.isNone_iff_eq_none]
      exact and_congr_right fun _ => or_assoc.symm
    · rw [handleRes_error_iff, parseBalance_error_iff]
      simp only [Bool.and_eq_true, Bool.or_eq_true, decide_eq_true_iff,
        Option.isNone_iff_eq_none]
      exact and_congr_right fun _ => or_assoc.symm
    · simp
    · exact handleTrans_error_iff n (pyStrip raw) st
    · simp
  · have hh2 : lstartsWith "#" (pyStrip raw) = false := by
      cases hc : lstartsWith "#" (pyStrip raw)
      · rfl
      · exact absurd hc hh
    have hrk := recordKind_of_not_hash hh2
    refine iff_of_false ?_ ?_
    · intro ⟨e, he⟩
      unfold processLine at he
      dsimp only at he
      split_ifs at he with g1 g2 g3 g4 <;>
        first
          | exact Except.noConfusion he
          | exact absurd (by simpa using g4) hh
    · intro hx
      unfold lineDecodeFails at hx
      rw [hrk] at hx
      exact Bool.noConfusion hx

theorem processLine_error_payload {n : Nat} {raw : List Char} {st : ScanState}
    {e : SieParseError} (h : processLine n raw st = .error e) :
    e.line_number = some n ∧ e.line_content = some (pyStrip raw) := by
  by_cases hh : lstartsWith "#" (pyStrip raw) = true
  · rw [processLine_eq_processTag _ _ _ hh] at h
    unfold processTag at h
    cases hrk : recordKind (pyStrip raw) <;> rw [hrk] at h
    · exact Except.noConfusion h
    · exact Except.noConfusion h
    · exact Except.noConfusion h
    · exact Except.noConfusion h
    · exact Except.noConfusion h
    · exact Except.noConfusion h
    · exact Except.noConfusion h
    · exact Except.noConfusion h
    · exact Except.noConfusion h
    · exact Except.noConfusion h
    · exact Except.noConfusion h
    · exact handleOrgnr_error_payload h
    · exact handleRar_error_payload h
    · exact Except.noConfusion h
    · exact Except.noConfusion h
    · exact Except.noConfusion h
    · exact Except.noConfusion h
    · exact Except.noConfusion h
    · exact handleIB_error_payload h
    · exact handleUB_error_payload h
    · exact handleRes_error_payload h
    · exact Except.noConfusion h
    · exact handleTrans_error_payload h
    · exact Except.noConfusion h
  · unfold processLine at h
    dsimp only at h
    split_ifs at h with g1 g2 g3 g4 <;>
      first
        | exact Except.noConfusion h
        | exact absurd (by simpa using g4) hh

/-! ## Lemmas: unfolding the top-level pipeline -/

theorem parseSieLines_ok_elim {lines : List (List Char)} {f : SieFile}
    (h : parseSieLines lines = .ok f) :
    ∃ st accs, scanLines 1 lines initialState = .ok st ∧
      apply_ktyp_records st.sie.accounts st.ktyp_records = .ok accs ∧
      f = { st.sie with accounts := apply_sru_records accs st.sru_records } := by
  unfold parseSieLines at h
  cases hs : scanLines 1 lines initialState <;> rw [hs] at h
  · exact Except.noConfusion h
  · rename_i st
    dsimp only at h
    cases hk : apply_ktyp_records st.sie.accounts st.ktyp_records <;>
      rw [hk] at h
    · exact Except.noConfusion h
    · injection h with h2
      exact ⟨st, _, rfl, hk, h2.symm⟩

/-! ## Lemmas: invariants of the per-id account fold -/

theorem kontoAccStep_inv {id : List Char} {o : Option SieAccount}
    (ho : ∀ b, o = some b → b.number = id ∧ b.type = get_bas_account_type id)
    (raw : List Char) :
    ∀ b, kontoAccStep id o raw = some b →
      b.number = id ∧ b.type = get_bas_account_type id := by
  intro b hb
  unfold kontoAccStep at hb
  dsimp only at hb
  split_ifs at hb with hc
  · injection hb with hb2
    subst hb2
    exact ⟨rfl, rfl⟩
  · exact ho b hb

theorem foldl_kontoAccStep_inv :
    ∀ (ls : List (List Char)) (id : List Char) (o : Option SieAccount),
    (∀ b, o = some b → b.number = id ∧ b.type = get_bas_account_type id) →
    ∀ a, ls.foldl (kontoAccStep id) o = some a →
      a.number = id ∧ a.type = get_bas_account_type id := by
  intro ls
  induction ls with
  | nil =>
    intro id o ho a ha
    exact ho a ha
  | cons l rest ih =>
    intro id o ho a ha
    rw [List.foldl_cons] at ha
    exact ih id _ (fun b hb => kontoAccStep_inv ho l b hb) a ha

theorem lastKonto_fields (lines : List (List Char)) {id : List Char}
    {a : SieAccount} (h : lastKontoLines lines id = some a) :
    a.number = id ∧ a.type = get_bas_account_type id :=
  foldl_kontoAccStep_inv lines id none (fun b hb => Option.noConfusion hb) a h

/-! ## Lemmas: the tax-code pass touches only the tax-code field -/

theorem apply_sru_records_fields :
    ∀ (pairs : List (List Char × List Char))
      (accs : List (List Char × SieAccount)) (id2 : List Char)
      (a2 : SieAccount),
    lookupD id2 (apply_sru_records accs pairs) = some a2 →
    ∃ a, lookupD id2 accs = some a ∧ a2.number = a.number ∧
      a2.name = a.name ∧ a2.type = a.type := by
  intro pairs
  induction pairs with
  | nil =>
    intro accs id2 a2 h
    exact ⟨a2, h, rfl, rfl, rfl⟩
  | cons p rest ih =>
    intro accs id2 a2 h
    obtain ⟨k, c⟩ := p
    unfold apply_sru_records at h
    split_ifs at h with hm
    · obtain ⟨a1, ha1, hn, hna, ht⟩ := ih _ _ _ h
      by_cases hk : k = id2
      · subst hk
        rw [lookupD_updateD_self] at ha1
        cases hacc : lookupD k accs with
        | none =>
          rw [hacc] at ha1
          exact Option.noConfusion ha1
        | some a0 =>
          rw [hacc] at ha1
          injection ha1 with ha2
          subst ha2
          exact ⟨a0, rfl, hn, hna, ht⟩
      · rw [lookupD_updateD_ne (fun hx => hk hx.symm)] at ha1
        exact ⟨a1, ha1, hn, hna, ht⟩
    · exact ih _ _ _ h

/-! ## Lemmas: character membership through the string primitives -/

theorem mem_of_mem_dropWhile {p : Char → Bool} {l : List Char} {c : Char}
    (h : c ∈ l.dropWhile p) : c ∈ l :=
  (List.dropWhile_sublist p).subset h

theorem mem_of_mem_pyStrip {c : Char} {l : List Char}
    (h : c ∈ pyStrip l) : c ∈ l := by
  unfold pyStrip at h
  rw [List.mem_reverse] at h
  have h2 := mem_of_mem_dropWhile h
  rw [List.mem_reverse] at h2
  exact mem_of_mem_dropWhile h2

theorem mem_of_mem_pySplitMax :
    ∀ (l : List Char) (n : Nat), ∀ p ∈ pySplitMax n l, ∀ c ∈ p, c ∈ l := by
  intro l
  induction l with
  | nil =>
    intro n p hp c hc
    cases n with
    | zero =>
      simp only [pySplitMax, List.mem_singleton] at hp
      subst hp
      exact hc
    | succ m =>
      simp only [pySplitMax, List.mem_singleton] at hp
      subst hp
      simp at hc
  | cons d cs ih =>
    intro n p hp c hc
    cases n with
    | zero =>
      simp only [pySplitMax, List.mem_singleton] at hp
      subst hp
      exact hc
    | succ m =>
      unfold pySplitMax at hp
      by_cases hd : d = ' '
      · rw [if_pos hd] at hp
        rcases List.mem_cons.mp hp with h1 | h1
        · subst h1
          simp at hc
        · exact List.mem_cons_of_mem _ (ih m p h1 c hc)
      · rw [if_neg hd] at hp
        cases hrec : pySplitMax (m + 1) cs with
        | nil =>
          rw [hrec] at hp
          simp only [List.mem_singleton] at hp
          subst hp
          rcases List.mem_cons.mp hc with h1 | h1
          · subst h1
            exact List.mem_cons_self _ _
          · simp at h1
        | cons t ts =>
          rw [hrec] at hp
          rcases List.mem_cons.mp hp with h1 | h1
          · subst h1
            rcases List.mem_cons.mp hc with h2 | h2
            · subst h2
              exact List.mem_cons_self _ _
            · refine List.mem_cons_of_mem _ (ih (m + 1) t ?_ c h2)
              rw [hrec]
              exact List.mem_cons_self _ _
          · refine List.mem_cons_of_mem _ (ih (m + 1) p ?_ c hc)
            rw [hrec]
            exact List.mem_cons_of_mem _ h1

theorem getD_mem_of_lt {α : Type} {l : List α} {i : Nat} {d : α}
    (h : i < l.length) : l.getD i d ∈ l := by
  rw [List.getD_eq_getElem?_getD, List.getElem?_eq_getElem h]
  exact List.getElem_mem h

/-! ## Lemmas: token shapes used by the ledger-line amount decode -/

theorem findIdxQ_none :
    ∀ (l : List Char), '\x7d' ∉ l → ∀ i, l.findIdx? (· = '\x7d') i = none := by
  intro l
  induction l with
  | nil =>
    intro _ i
    rfl
  | cons c cs ih =>
    intro h i
    rw [List.mem_cons, not_or] at h
    unfold List.findIdx?
    rw [if_neg (by simpa using fun hx => h.1 hx.symm)]
    exact ih h.2 (i + 1)

theorem dropWhile_append_single {c : Char} (h : isPySpace c = false) :
    ∀ xs : List Char,
    (xs ++ [c]).dropWhile isPySpace = xs.dropWhile isPySpace ++ [c] := by
  intro xs
  induction xs with
  | nil =>
    simp [List.dropWhile_cons, h]
  | cons a t ih =>
    by_cases ha : isPySpace a
    · simp [List.dropWhile_cons, ha, ih]
    · simp [List.dropWhile_cons, ha]

theorem pyStrip_cons_of_not_space {c : Char} (t : List Char)
    (h : isPySpace c = false) :
    pyStrip (c :: t) = c :: (t.reverse.dropWhile isPySpace).reverse := by
  unfold pyStrip
  rw [List.dropWhile_cons, if_neg (by simp [h]), List.reverse_cons,
    dropWhile_append_single h, List.reverse_append]
  rfl

theorem pySplitWsGo_first :
    ∀ (t cur : List Char), cur.isEmpty = false →
    ∃ rest, pySplitWsGo t cur =
      (cur.reverse ++ t.takeWhile (fun d => !isPySpace d)) :: rest := by
  intro t
  induction t with
  | nil =>
    intro cur h
    refine ⟨[], ?_⟩
    unfold pySplitWsGo
    rw [if_neg (by simp [h])]
    simp
  | cons d t ih =>
    intro cur h
    unfold pySplitWsGo
    by_cases hd : isPySpace d
    · rw [if_pos hd, if_neg (by simp [h])]
      refine ⟨pySplitWsGo t [], ?_⟩
      rw [List.takeWhile_cons, if_neg (by simp [hd])]
      simp
    · rw [if_neg hd]
      obtain ⟨rest, hr⟩ := ih (d :: cur) (by simp)
      refine ⟨rest, ?_⟩
      rw [hr, List.takeWhile_cons, if_pos (by simp [hd])]
      simp

theorem pyFloatParse_lbrace (y : List Char) :
    pyFloatParse ('\x7b' :: y) = none := by
  unfold pyFloatParse
  rw [pyStrip_cons_of_not_space y (by decide)]
  simp [readGroupOpt, takeNumRun]

/-! ## The claims -/

/-- C4: the raises of the scan and of the deferred type pass.  A scanned
line raises exactly when `lineDecodeFails` holds of it — a handler's
numeric decode fails, or the unguarded organisation-id record has no
space — and the raised error carries the 1-based line number and the
stripped line; the deferred `#KTYP` pass raises exactly when a buffered
code is not one of the four valid letters; a scan error aborts
`parseSieLines` whole, with no partial file; and the line
`#IB 0 1910 notanumber` raises citing its line number and text.  (The
claim's "exactly when a numeric field cannot be decoded or a buffered
code is invalid" misses the bare-`#ORGNR` raise: see
`c4_orgnr_raise_counterexample`.) -/
theorem c4_parse_failure_conditions :
    (∀ (n : Nat) (raw : List Char) (st : ScanState),
      ((∃ e, processLine n raw st = .error e) ↔
        lineDecodeFails st.in_voucher_block st.current_voucher.isSome
          (pyStrip raw) = true) ∧
      ∀ e, processLine n raw st = .error e →
        e.line_number = some n ∧ e.line_content = some (pyStrip raw)) ∧
    (∀ (accs : List (List Char × SieAccount))
        (pairs : List (List Char × List Char)),
      (∃ e, apply_ktyp_records accs pairs = .error e) ↔
        ∃ p ∈ pairs, AccountType.from_sie_code p.2 = none) ∧
    (∀ (lines : List (List Char)) (e : SieParseError),
      scanLines 1 lines initialState = .error e →
      parseSieLines lines = .error e) ∧
    (∃ e, parseSieLines [c4IBLine] = .error e ∧
      e.line_number = some 1 ∧ e.line_content = some c4IBLine) := by
  refine ⟨fun n raw st => ⟨processLine_error_iff n raw st,
      fun e he => processLine_error_payload he⟩,
    fun accs pairs => apply_ktyp_error_iff pairs accs,
    fun lines e h => by unfold parseSieLines; rw [h],
    ⟨mkScanError 1 c4IBLine (floatErrText "notanumber".data),
      by decide, rfl, rfl⟩⟩

/-- C4 counterexample: a bare `#ORGNR` line raises although it has no
numeric field and buffers no type code, so the claim's "exactly when"
fails. -/
theorem c4_orgnr_raise_counterexample :
    parseSieLines ["#ORGNR".data] = .error c4OrgErr ∧
    c4OrgErr.message = "Error parsing line: list index out of range".data ∧
    c4OrgErr.line_number = some 1 := by
  decide

/-- C7: a dispatched company-name record always sets the company name to
the quoted-value extraction of the line — empty when the line has no
complete quoted field; there is no fall-back to a bare trailing token
(`c7_no_fallback_counterexample` refutes the claim's fallback clause). -/
theorem c7_fnamn_quoted_only (n : Nat) (raw : List Char) (st : ScanState)
    (hrk : recordKind (pyStrip raw) = RecordKind.fnamn) :
    processLine n raw st = .ok { st with sie :=
      { st.sie with company_name := extractQuotedValue (pyStrip raw) } } := by
  have hh := recordKind_hash hrk (by decide)
  rw [processLine_eq_processTag _ _ _ hh]
  unfold processTag
  rw [hrk]

/-- C7 witness: the theorem applied to a quoted company-name line. -/
theorem c7_fnamn_quoted_only_witness :
    processLine 1 c7WitRaw initialState = .ok { initialState with sie :=
      { initialState.sie with
        company_name := extractQuotedValue (pyStrip c7WitRaw) } } :=
  c7_fnamn_quoted_only 1 c7WitRaw initialState (by decide)

/-- C7 counterexample: `#FNAMN Acme` has the bare trailing token `Acme`
but no quoted value, and the parsed company name is empty, not `Acme`. -/
theorem c7_no_fallback_counterexample :
    parseSieLines c7Lines = .ok c7File ∧
    tailField (pyStrip (c7Lines.getD 0 [])) = "Acme".data ∧
    c7File.company_name = [] ∧
    c7File.company_name ≠ "Acme".data := by
  decide

/-- C8: the code bug behind the claim — a bare `#ORGNR` line, a short
record with no numeric field, makes `parse_sie` raise the `IndexError` of
the unguarded subscript wrapped as a `SieParseError`, instead of parsing
to a file with an absent organisation id. -/
theorem c8_bare_orgnr_raises :
    parse_sie "#ORGNR".data = .error c8Err ∧
    c8Err.message = "Error parsing line: ".data ++ indexErrText ∧
    c8Err.line_number = some 1 ∧
    c8Err.line_content = some "#ORGNR".data := by
  decide

/-- C9: `parse_sie_file` reports a decode failure through the same
exception class as a grammar failure — a `SieParseError` whose message
names the attempted encoding (default `cp437`) and that carries no line
number — while a missing file propagates as the separate built-in
file-not-found error.  (The claim calls the decode condition distinct
from a Grammar/Numeric Parse Failure; `c9_same_class_counterexample`
shows both failures arrive as the same class.) -/
theorem c9_decode_failure_reporting :
    (∀ (excText : List Char) (enc : Option (List Char)),
      parse_sie_file (ReadOutcome.decodeFailure excText) enc =
        .error (.sieParse
          { message := "File is not properly encoded in ".data ++
              enc.getD "cp437".data ++
              ". According to the SIE 4B specification, SIE files must use CP437 encoding (IBM PC 8-bits extended ASCII). Error: ".data
                ++ excText,
            line_number := none, line_content := none })) ∧
    ∀ enc : Option (List Char),
      parse_sie_file ReadOutcome.fileNotFound enc =
        .error SieFileOutcomeError.fileNotFound :=
  ⟨fun _ _ => rfl, fun _ => rfl⟩

/-- C9 counterexample: a decode failure and a numeric grammar failure both
surface from `parse_sie_file` as the same `SieParseError` exception class,
so the decode condition is not a distinct condition. -/
theorem c9_same_class_counterexample :
    parse_sie_file (ReadOutcome.decodeFailure "bad byte".data) none =
      .error (SieFileOutcomeError.sieParse c9DecErr) ∧
    parse_sie_file (ReadOutcome.content "#IB 0 1910 bad".data) none =
      .error (SieFileOutcomeError.sieParse c9NumErr) := by
  decide

/-- C2: when the code buffered for an id — the code of the LAST `#KTYP`
record for that id — decodes to a valid type, the finished file holds an
account under the id with exactly that classification, whether the
declaration appears before or after the override or nowhere at all; with
no declaration the account is the synthesised placeholder whose display
name is `"Account "` followed by the id.  (Each id keeps one buffered
code, so the claim's "for every override record" fails for duplicate
overrides: see `c2_duplicate_ktyp_counterexample`.) -/
theorem c2_ktyp_override_applied (lines : List (List Char)) (f : SieFile)
    (id code : List Char) (t : AccountType)
    (hok : parseSieLines lines = .ok f)
    (hcode : lastKtypLines lines id = some code)
    (ht : AccountType.from_sie_code code = some t) :
    ∃ acc, lookupD id f.accounts = some acc ∧ acc.type = t ∧
      acc.number = id ∧
      (lastKontoLines lines id = none →
        acc.name = "Account ".data ++ id) := by
  obtain ⟨st, accs, hscan, hktyp, hf⟩ := parseSieLines_ok_elim hok
  obtain ⟨lk, ls, la, ndk, nds⟩ := scan_initial_summary hscan id
  rw [hcode] at lk
  have h2 := apply_ktyp_lookup_some st.ktyp_records st.sie.accounts accs
    ndk lk ht hktyp
  rw [la] at h2
  subst hf
  cases hkl : lastKontoLines lines id with
  | none =>
    rw [hkl] at h2
    cases hsr : lookupD id st.sru_records with
    | none =>
      have h3 := apply_sru_lookup_none st.sru_records accs hsr
      rw [h2] at h3
      exact ⟨_, h3, rfl, rfl, fun _ => rfl⟩
    | some c =>
      have h3 := apply_sru_lookup_some st.sru_records accs nds hsr
      rw [h2] at h3
      exact ⟨_, h3, rfl, rfl, fun _ => rfl⟩
  | some a0 =>
    rw [hkl] at h2
    have hn0 := (lastKonto_fields lines hkl).1
    cases hsr : lookupD id st.sru_records with
    | none =>
      have h3 := apply_sru_lookup_none st.sru_records accs hsr
      rw [h2] at h3
      exact ⟨_, h3, rfl, hn0, fun hc => absurd hc (by simp [hkl])⟩
    | some c =>
      have h3 := apply_sru_lookup_some st.sru_records accs nds hsr
      rw [h2] at h3
      exact ⟨_, h3, rfl, hn0, fun hc => absurd hc (by simp [hkl])⟩

/-- C2 witness: the theorem applied to a lone `#KTYP 5000 I` record with
no declaration: the placeholder income account is created. -/
theorem c2_ktyp_override_applied_witness :
    ∃ acc, lookupD "5000".data c2WitFile.accounts = some acc ∧
      acc.type = AccountType.INCOME ∧ acc.number = "5000".data ∧
      (lastKontoLines c2WitLines "5000".data = none →
        acc.name = "Account ".data ++ "5000".data) :=
  c2_ktyp_override_applied c2WitLines c2WitFile "5000".data "I".data
    AccountType.INCOME (by decide) (by decide) (by decide)

/-- C2 counterexample: with two overrides for the same id (`K` then `S`)
the finished classification is the second code's liability, not the first
code's asset — the claim's "for every override record" fails. -/
theorem c2_duplicate_ktyp_counterexample :
    parseSieLines c2Lines = .ok c2File ∧
    lookupD "1910".data c2File.accounts = some c2Acct ∧
    c2Acct.type = AccountType.LIABILITY ∧
    AccountType.from_sie_code "K".data = some AccountType.ASSET ∧
    isKtypRecordFor "1910".data (c2Lines.getD 1 []) = true ∧
    (pySplitWs (c2Lines.getD 1 [])).getD 2 [] = "K".data := by
  decide

/-- C3: an account with a declaration and no buffered type override keeps
the BAS default classification `get_bas_account_type` of its identifier,
and `1910` classifies as asset.  (The code consults the 8xxx prefix
sub-table only for identifiers of length at least four, where the claim's
engine has no length condition: see `c3_engine_short8_counterexample`.) -/
theorem c3_default_classification (lines : List (List Char)) (f : SieFile)
    (id : List Char)
    (hok : parseSieLines lines = .ok f)
    (hno : lastKtypLines lines id = none)
    (hdecl : (lastKontoLines lines id).isSome = true) :
    ∃ acc, lookupD id f.accounts = some acc ∧
      acc.type = get_bas_account_type id ∧
      get_bas_account_type "1910".data = AccountType.ASSET := by
  obtain ⟨st, accs, hscan, hktyp, hf⟩ := parseSieLines_ok_elim hok
  obtain ⟨lk, ls, la, ndk, nds⟩ := scan_initial_summary hscan id
  rw [hno] at lk
  have h2 := apply_ktyp_lookup_none st.ktyp_records st.sie.accounts accs
    lk hktyp
  rw [la] at h2
  obtain ⟨a0, ha0⟩ := Option.isSome_iff_exists.mp hdecl
  rw [ha0] at h2
  have hl := (lastKonto_fields lines ha0).2
  subst hf
  cases hsr : lookupD id st.sru_records with
  | none =>
    have h3 := apply_sru_lookup_none st.sru_records accs hsr
    rw [h2] at h3
    exact ⟨a0, h3, hl, by decide⟩
  | some c =>
    have h3 := apply_sru_lookup_some st.sru_records accs nds hsr
    rw [h2] at h3
    exact ⟨_, h3, hl, by decide⟩

/-- C3 witness: the theorem applied to `#KONTO 1910 Kassa` with no
override: the account classifies as the BAS default, an asset. -/
theorem c3_default_classification_witness :
    ∃ acc, lookupD "1910".data c3WitFile.accounts = some acc ∧
      acc.type = get_bas_account_type "1910".data ∧
      get_bas_account_type "1910".data = AccountType.ASSET :=
  c3_default_classification c3WitLines c3WitFile "1910".data
    (by decide) (by decide) (by decide)

/-- C3 counterexample: the claim's engine maps prefix `801` to income with
no length condition, but the code consults the 8xxx sub-table only for
identifiers of length at least four, so account `801` classifies as
expense end to end. -/
theorem c3_engine_short8_counterexample :
    claimEngineC3 "801".data = AccountType.INCOME ∧
    get_bas_account_type "801".data = AccountType.EXPENSE ∧
    parseSieLines c3Lines = .ok c3File ∧
    lookupD "801".data c3File.accounts = some c3Acct ∧
    c3Acct.type = AccountType.EXPENSE := by
  decide

/-- C5: the tax-code pass and its frame.  When the code buffered for an id
is the code of the LAST `#SRU` record for that id, the finished accounts
are the resolution-time accounts with exactly that id's tax code set when
the account exists and nothing at all when it does not (the `Option.map`
describes both cases); moreover every surviving account keeps its number,
name and classification — only tax codes change, and no account is
created.  (One buffered code per id — the last record wins — so the
claim's "set to the record's code" fails for duplicates: see
`c5_duplicate_sru_counterexample`.) -/
theorem c5_sru_resolution (lines : List (List Char)) (st : ScanState)
    (accs : List (List Char × SieAccount)) (id code : List Char)
    (hscan : scanLines 1 lines initialState = .ok st)
    (hktyp : apply_ktyp_records st.sie.accounts st.ktyp_records = .ok accs)
    (hcode : lastSruLines lines id = some code) :
    parseSieLines lines =
      .ok { st.sie with accounts := apply_sru_records accs st.sru_records } ∧
    lookupD id (apply_sru_records accs st.sru_records) =
      (lookupD id accs).map (fun a => { a with sru_code := code }) ∧
    ∀ (id2 : List Char) (a2 : SieAccount),
      lookupD id2 (apply_sru_records accs st.sru_records) = some a2 →
      ∃ a, lookupD id2 accs = some a ∧ a2.number = a.number ∧
        a2.name = a.name ∧ a2.type = a.type := by
  obtain ⟨-, ls, -, -, nds⟩ := scan_initial_summary hscan id
  rw [hcode] at ls
  refine ⟨?_, ?_, ?_⟩
  · unfold parseSieLines
    rw [hscan]
    dsimp only
    rw [hktyp]
  · exact apply_sru_lookup_some st.sru_records accs nds ls
  · intro id2 a2 h
    exact apply_sru_records_fields st.sru_records accs id2 a2 h

/-- C5 witness: the theorem applied to a declaration plus one tax-code
record. -/
theorem c5_sru_resolution_witness :
    parseSieLines c5WitLines = .ok { c5WitState.sie with
      accounts := apply_sru_records c5WitState.sie.accounts
        c5WitState.sru_records } ∧
    lookupD "1910".data (apply_sru_records c5WitState.sie.accounts
        c5WitState.sru_records) =
      (lookupD "1910".data c5WitState.sie.accounts).map
        (fun a => { a with sru_code := "7201".data }) ∧
    ∀ (id2 : List Char) (a2 : SieAccount),
      lookupD id2 (apply_sru_records c5WitState.sie.accounts
        c5WitState.sru_records) = some a2 →
      ∃ a, lookupD id2 c5WitState.sie.accounts = some a ∧
        a2.number = a.number ∧ a2.name = a.name ∧ a2.type = a.type :=
  c5_sru_resolution c5WitLines c5WitState c5WitState.sie.accounts
    "1910".data "7201".data (by decide) rfl (by decide)

/-- C5 counterexample: with two tax-code records for the same id (`7201`
then `7301`) the finished tax code is the second record's, so the claim's
"its tax code is set to the record's code", read of every record, fails
for the first one. -/
theorem c5_duplicate_sru_counterexample :
    parseSieLines c5Lines = .ok c5File ∧
    lookupD "1910".data c5File.accounts = some c5Acct ∧
    c5Acct.sru_code = "7301".data ∧
    recordKind (pyStrip (c5Lines.getD 1 [])) = RecordKind.sru ∧
    (pySplitWs (c5Lines.getD 1 [])).getD 2 [] = "7201".data ∧
    c5Acct.sru_code ≠ "7201".data := by
  decide

/-- C6: a dispatched period record with at least three single-space fields
sets the file's period fields whenever its period-index token is the
number zero OR fails the digit guard (a non-numeric index defaults the
period to `0` and sets the fields), and leaves them unchanged exactly when
the guarded token decodes to a nonzero integer.  (The claim's "left
unchanged by every period-index token other than 0, including non-numeric
tokens" fails at the non-numeric case: see
`c6_nonnumeric_rar_counterexample`.) -/
theorem c6_rar_period_zero (n : Nat) (raw : List Char) (st st2 : ScanState)
    (hrk : recordKind (pyStrip raw) = RecordKind.rar)
    (hp : 3 ≤ (pySplitSp (pyStrip raw)).length)
    (h : processLine n raw st = .ok st2) :
    ((pyIsdigit (dropLeadingMinus ((pySplitSp (pyStrip raw)).getD 1 [])) =
        false ∨
      pyIntParse ((pySplitSp (pyStrip raw)).getD 1 []) = some 0) →
      st2.sie.period_start = (pySplitSp (pyStrip raw)).getD 2 [] ∧
      st2.sie.period_end = (if 3 < (pySplitSp (pyStrip raw)).length
        then (pySplitSp (pyStrip raw)).getD 3 [] else [])) ∧
    ((pyIsdigit (dropLeadingMinus ((pySplitSp (pyStrip raw)).getD 1 [])) =
        true ∧
      pyIntParse ((pySplitSp (pyStrip raw)).getD 1 []) ≠ some 0) →
      st2.sie.period_start = st.sie.period_start ∧
      st2.sie.period_end = st.sie.period_end) := by
  have hh := recordKind_hash hrk (by decide)
  rw [processLine_eq_processTag _ _ _ hh] at h
  unfold processTag at h
  rw [hrk] at h
  unfold handleRar at h
  dsimp only at h
  rw [if_pos hp] at h
  by_cases hg : pyIsdigit
      (dropLeadingMinus ((pySplitSp (pyStrip raw)).getD 1 [])) = true
  · rw [if_pos hg] at h
    cases hpi : pyIntParse ((pySplitSp (pyStrip raw)).getD 1 []) with
    | none =>
      rw [hpi] at h
      exact Except.noConfusion h
    | some v =>
      rw [hpi] at h
      dsimp only at h
      by_cases hv : v = 0
      · subst hv
        rw [if_pos rfl] at h
        injection h with h2
        subst h2
        exact ⟨fun _ => ⟨rfl, rfl⟩, fun hc => absurd rfl hc.2⟩
      · rw [if_neg hv] at h
        injection h with h2
        subst h2
        refine ⟨fun hc => ?_, fun _ => ⟨rfl, rfl⟩⟩
        rcases hc with hc1 | hc1
        · rw [hc1] at hg
          exact Bool.noConfusion hg
        · injection hc1 with hc2
          exact absurd hc2 hv
  · rw [if_neg hg] at h
    dsimp only at h
    rw [if_pos rfl] at h
    injection h with h2
    subst h2
    exact ⟨fun _ => ⟨rfl, rfl⟩, fun hc => absurd hc.1 hg⟩

/-- C6 witness: the theorem applied to `#RAR 0 20240101 20241231` from the
initial state — the index token `0` sets both period fields. -/
theorem c6_rar_period_zero_witness :
    ((pyIsdigit
        (dropLeadingMinus ((pySplitSp (pyStrip c6WitRaw)).getD 1 [])) =
        false ∨
      pyIntParse ((pySplitSp (pyStrip c6WitRaw)).getD 1 []) = some 0) →
      c6WitState.sie.period_start = (pySplitSp (pyStrip c6WitRaw)).getD 2 [] ∧
      c6WitState.sie.period_end = (if 3 < (pySplitSp (pyStrip c6WitRaw)).length
        then (pySplitSp (pyStrip c6WitRaw)).getD 3 [] else [])) ∧
    ((pyIsdigit
        (dropLeadingMinus ((pySplitSp (pyStrip c6WitRaw)).getD 1 [])) =
        true ∧
      pyIntParse ((pySplitSp (pyStrip c6WitRaw)).getD 1 []) ≠ some 0) →
      c6WitState.sie.period_start = initialState.sie.period_start ∧
      c6WitState.sie.period_end = initialState.sie.period_end) :=
  c6_rar_period_zero 1 c6WitRaw initialState c6WitState (by decide)
    (by decide) (by decide)

/-- C6 counterexample: the non-numeric period-index token `x` sets the
period fields (they start empty and end set), refuting "left unchanged by
the record for every period-index token other than 0, including
non-numeric period-index tokens". -/
theorem c6_nonnumeric_rar_counterexample :
    parseSieLines c6Lines = .ok c6File ∧
    pyIsdigit (dropLeadingMinus "x".data) = false ∧
    c6File.period_start = "20240101".data ∧
    c6File.period_end = "20241231".data ∧
    c6File.period_start ≠ [] := by
  decide

/-- C1: a dispatched ledger line appends an entry exactly when, at that
moment, the scan is inside an open block, a voucher header is active, AND
the line splits into at least three fields; whenever any of these fails
the line leaves the state exactly as it was, without error.  (The claim's
iff omits the three-field condition:
`c1_short_trans_dropped_counterexample` exhibits a ledger line dropped
inside an open block with an active header.) -/
theorem c1_trans_entry_scope (n : Nat) (raw : List Char) (st st2 : ScanState)
    (hrk : recordKind (pyStrip raw) = RecordKind.trans)
    (h : processLine n raw st = .ok st2) :
    ((∃ en, st2.sie.entries = st.sie.entries ++ [en]) ↔
      (st.in_voucher_block = true ∧ st.current_voucher.isSome = true ∧
        3 ≤ (pySplitMax 2 (pyStrip raw)).length)) ∧
    (¬(st.in_voucher_block = true ∧ st.current_voucher.isSome = true ∧
        3 ≤ (pySplitMax 2 (pyStrip raw)).length) →
      processLine n raw st = .ok st) := by
  have hh := recordKind_hash hrk (by decide)
  rw [processLine_eq_processTag _ _ _ hh] at h ⊢
  unfold processTag at h ⊢
  rw [hrk] at h ⊢
  unfold handleTrans at h ⊢
  cases hb : st.in_voucher_block <;> rw [hb] at h <;>
    cases hv : st.current_voucher <;> rw [hv] at h <;> (try dsimp only at h ⊢)
  · injection h with h2
    subst h2
    exact ⟨iff_of_false (by simp) (by simp), fun _ => rfl⟩
  · injection h with h2
    subst h2
    exact ⟨iff_of_false (by simp) (by simp), fun _ => rfl⟩
  · injection h with h2
    subst h2
    exact ⟨iff_of_false (by simp) (by simp), fun _ => rfl⟩
  · by_cases hp : 3 ≤ (pySplitMax 2 (pyStrip raw)).length
    · rw [if_pos hp] at h
      refine ⟨iff_of_true ?_ ⟨rfl, rfl, hp⟩,
        fun hc => absurd ⟨rfl, rfl, hp⟩ hc⟩
      try dsimp only at h
      cases hhd : (pySplitWs (transSplitObjects
          (pyStrip ((pySplitMax 2 (pyStrip raw)).getD 2 []))).2).head? with
      | none =>
        rw [hhd] at h
        dsimp only at h
        injection h with h2
        subst h2
        exact ⟨_, rfl⟩
      | some a =>
        rw [hhd] at h
        dsimp only at h
        split_ifs at h with hcond
        · cases hpf : pyFloatParse (replaceComma a) <;> rw [hpf] at h
          · exact Except.noConfusion h
          · injection h with h2
            subst h2
            exact ⟨_, rfl⟩
        · injection h with h2
          subst h2
          exact ⟨_, rfl⟩
    · rw [if_neg hp] at h ⊢
      injection h with h2
      subst h2
      exact ⟨iff_of_false (by simp) (by simp [hp]), fun _ => rfl⟩

/-- C1 witness: the theorem applied to a well-formed ledger line scanned
outside any block from the initial state — it is dropped without error. -/
theorem c1_trans_entry_scope_witness :
    ((∃ en, initialState.sie.entries = initialState.sie.entries ++ [en]) ↔
      (initialState.in_voucher_block = true ∧
        initialState.current_voucher.isSome = true ∧
        3 ≤ (pySplitMax 2 (pyStrip "#TRANS 1910 100.00".data)).length)) ∧
    (¬(initialState.in_voucher_block = true ∧
        initialState.current_voucher.isSome = true ∧
        3 ≤ (pySplitMax 2 (pyStrip "#TRANS 1910 100.00".data)).length) →
      processLine 1 "#TRANS 1910 100.00".data initialState =
        .ok initialState) :=
  c1_trans_entry_scope 1 "#TRANS 1910 100.00".data initialState initialState
    (by decide) (by decide)

/-- C1 counterexample: inside an open block with an active voucher header,
the two-field ledger line `#TRANS 1910` is dropped and no entry is
recorded, refuting the claim's "recorded if and only if inside an open
block with an active header". -/
theorem c1_short_trans_dropped_counterexample :
    c1BlockState.in_voucher_block = true ∧
    c1BlockState.current_voucher.isSome = true ∧
    recordKind (pyStrip "#TRANS 1910".data) = RecordKind.trans ∧
    processLine 3 "#TRANS 1910".data c1BlockState = .ok c1BlockState ∧
    c1BlockState.sie.entries = [] := by
  decide

/-- C10: a ledger line accepted inside an open block with an active
voucher, whose rest after the account id begins with `\x7b` while the line
holds no `\x7d` at all, raises: the unterminated object text is not
dropped but reaches the float decode as an amount token starting `\x7b`,
which fails, and the error carries the 1-based line number and the
stripped line. -/
theorem c10_unterminated_object_raises (n : Nat) (raw : List Char)
    (st : ScanState)
    (hb : st.in_voucher_block = true)
    (hv : st.current_voucher.isSome = true)
    (hrk : recordKind (pyStrip raw) = RecordKind.trans)
    (hp : 3 ≤ (pySplitMax 2 (pyStrip raw)).length)
    (hbr : (pyStrip ((pySplitMax 2 (pyStrip raw)).getD 2 [])).head? =
      some '\x7b')
    (hnc : '\x7d' ∉ pyStrip raw) :
    ∃ e, processLine n raw st = .error e ∧
      e.line_number = some n ∧ e.line_content = some (pyStrip raw) := by
  have hgd : (pySplitMax 2 (pyStrip raw)).getD 2 [] ∈
      pySplitMax 2 (pyStrip raw) := getD_mem_of_lt hp
  obtain ⟨rtl, hrtl⟩ : ∃ rtl,
      pyStrip ((pySplitMax 2 (pyStrip raw)).getD 2 []) = '\x7b' :: rtl := by
    cases hr : pyStrip ((pySplitMax 2 (pyStrip raw)).getD 2 []) with
    | nil =>
      rw [hr] at hbr
      exact Option.noConfusion hbr
    | cons c0 t0 =>
      rw [hr] at hbr
      injection hbr with hc0
      exact ⟨t0, by rw [hc0]⟩
  have hncr : '\x7d' ∉ ('\x7b' :: rtl : List Char) := by
    rw [← hrtl]
    intro hmem
    exact hnc (mem_of_mem_pySplitMax (pyStrip raw) 2 _ hgd '\x7d'
      (mem_of_mem_pyStrip hmem))
  have htso : transSplitObjects ('\x7b' :: rtl) = ([], '\x7b' :: rtl) := by
    unfold transSplitObjects
    have hhead : ('\x7b' :: rtl : List Char).head? = some '\x7b' := rfl
    rw [if_pos hhead, findIdxQ_none _ hncr 0]
  obtain ⟨restToks, htok⟩ := pySplitWsGo_first rtl ['\x7b'] rfl
  have hws : pySplitWs ('\x7b' :: rtl) =
      ('\x7b' :: rtl.takeWhile (fun d => !isPySpace d)) :: restToks := by
    unfold pySplitWs pySplitWsGo
    rw [if_neg (by decide)]
    exact htok
  have hne : ('\x7b' :: rtl.takeWhile (fun d => !isPySpace d)) ≠
      "\x7b\x7d".data := by
    intro hx
    apply hncr
    have h7 : '\x7d' ∈ ('\x7b' :: rtl.takeWhile (fun d => !isPySpace d)) := by
      rw [hx]
      decide
    rcases List.mem_cons.mp h7 with h1 | h1
    · exact absurd h1 (by decide)
    · exact List.mem_cons_of_mem _ ((List.takeWhile_sublist _).subset h1)
  have hfp : pyFloatParse (replaceComma
      ('\x7b' :: rtl.takeWhile (fun d => !isPySpace d))) = none :=
    pyFloatParse_lbrace _
  have hfail : lineDecodeFails st.in_voucher_block st.current_voucher.isSome
      (pyStrip raw) = true := by
    unfold lineDecodeFails
    rw [hrk]
    dsimp only
    rw [hb, hv, hrtl, htso]
    dsimp only
    rw [hws]
    simp [hp, hne, hfp]
  obtain ⟨e, he⟩ := (processLine_error_iff n raw st).mpr hfail
  obtain ⟨h1, h2⟩ := processLine_error_payload he
  exact ⟨e, he, h1, h2⟩

/-- C10 witness: the theorem applied inside an open block with an active
voucher to `#TRANS 1910 \x7b1 "M" 100`, whose object list never closes. -/
theorem c10_unterminated_object_raises_witness :
    ∃ e, processLine 5 c10WitRaw c10BlockState = .error e ∧
      e.line_number = some 5 ∧ e.line_content = some (pyStrip c10WitRaw) :=
  c10_unterminated_object_raises 5 c10WitRaw c10BlockState (by decide)
    (by decide) (by decide) (by decide) (by decide) (by decide)
